import Mathlib

set_option maxHeartbeats 1000000

/-!
Shallow embedding of `scripts/cpa_witness2test.py` (CPA-witness2test).

The script validates a violation witness: it parses a property-specification
document, invokes an external harness generator, compiles each generated
harness (clang if available, else gcc; C standard gnu11 with a single gnu90
fallback), executes the resulting binary, classifies the execution result
against the active property set, and aggregates the per-harness verdicts
into one final verdict printed as `Verification result: <...>`.

Python strings used as verdicts, diagnostics and flags are kept verbatim.
Process interaction (`subprocess`, `shutil.which`, the file system) is made
explicit: the environment supplies the outcome of every external step, and
the run model records a trace of the external commands it issues.
-/

def RESULT_ACCEPT : String := "FALSE"

def RESULT_REJECT : String := "TRUE"

def RESULT_UNK : String := "UNKNOWN"

def EXPECTED_ERRMSG_REACH : String := "cpa_witness2test: violation"

def EXPECTED_ERRMSG_OVERFLOW : String := "runtime error:"

def EXPECTED_ERRMSG_MEM_FREE : String := "ERROR: AddressSanitizer: attempting free"

def EXPECTED_ERRMSG_MEM_DEREF : String := "ERROR: AddressSanitizer:"

def EXPECTED_ERRMSG_MEM_MEMTRACK : String := "ERROR: AddressSanitizer:"

def MACHINE_MODEL_32 : String := "32bit"

def MACHINE_MODEL_64 : String := "64bit"

def GCC_ARGS_FIXED : List String := ["-D__alias__(x)="]

/-- The five supported property tags; they stand for the Python strings
`SPEC_REACH` .. `SPEC_MEM_MEMTRACK` (see `spec_name`). -/
inductive SpecProp
  | reach
  | overflow
  | memFree
  | memDeref
  | memTrack
deriving DecidableEq

/-- The Python string value of each `SPEC_*` constant. -/
def spec_name : SpecProp → String
  | .reach => "unreach-call"
  | .overflow => "no-overflow"
  | .memFree => "valid-free"
  | .memDeref => "valid-deref"
  | .memTrack => "valid-memtrack"

/-- Result of one completed subprocess: `ExecutionResult` in the script. -/
structure ExecutionResult where
  returncode : Int
  stdout : String
  stderr : String
deriving DecidableEq

/-- Python's substring test `needle in hay` on character lists. -/
def containsSub (hay needle : List Char) : Bool :=
  match hay with
  | [] => needle.isEmpty
  | c :: t => needle.isPrefixOf (c :: t) || containsSub t needle

/-- Python's substring test `needle in hay` on strings. -/
def strContains (hay needle : String) : Bool :=
  containsSub hay.toList needle.toList

/-- `_analyze_result_values` from the script.  The `harness` parameter of the
original is used only for logging and is dropped.  Note the Python guard is
`test_result.stderr and expected_errmsg in test_result.stderr`: the captured
stderr must be non-empty (truthy) in addition to containing the expected
message. -/
def _analyze_result_values (test_result : ExecutionResult) (expected_returncode : Int)
    (expected_errmsg : String) (spec_prop : SpecProp) : String × Option SpecProp :=
  if test_result.returncode = expected_returncode ∧ test_result.stderr ≠ "" ∧
      strContains test_result.stderr expected_errmsg = true then
    (RESULT_ACCEPT, some spec_prop)
  else if test_result.returncode = 0 then
    (RESULT_REJECT, none)
  else
    (RESULT_UNK, none)

/-- The sequence of `check(code, err_msg, spec_property)` calls performed by
`analyze_result`: one per property present in `specification`, in the fixed
order reach, overflow, valid-free, valid-deref, valid-memtrack. -/
def checksFor (specification : List SpecProp) : List (Int × String × SpecProp) :=
  (if SpecProp.reach ∈ specification then
    [((107 : Int), EXPECTED_ERRMSG_REACH, SpecProp.reach)] else []) ++
  (if SpecProp.overflow ∈ specification then
    [((1 : Int), EXPECTED_ERRMSG_OVERFLOW, SpecProp.overflow)] else []) ++
  (if SpecProp.memFree ∈ specification then
    [((1 : Int), EXPECTED_ERRMSG_MEM_FREE, SpecProp.memFree)] else []) ++
  (if SpecProp.memDeref ∈ specification then
    [((1 : Int), EXPECTED_ERRMSG_MEM_DEREF, SpecProp.memDeref)] else []) ++
  (if SpecProp.memTrack ∈ specification then
    [((1 : Int), EXPECTED_ERRMSG_MEM_MEMTRACK, SpecProp.memTrack)] else [])

/-- `analyze_result` from the script.  The original extracts the entry at
`results.index(RESULT_ACCEPT)`, i.e. the first entry whose first component is
`RESULT_ACCEPT`; this is expressed with `List.find?`. -/
def analyze_result (test_result : ExecutionResult) (specification : List SpecProp) :
    String × Option SpecProp :=
  let results_and_violated_props :=
    (checksFor specification).map
      (fun c => _analyze_result_values test_result c.1 c.2.1 c.2.2)
  match results_and_violated_props.find? (fun r => r.1 == RESULT_ACCEPT) with
  | some r => (RESULT_ACCEPT, r.2)
  | none =>
    if results_and_violated_props.any (fun r => r.1 == RESULT_UNK) then
      (RESULT_UNK, none)
    else
      (RESULT_REJECT, none)

/-- Registry iteration order of the property table. -/
def registryOrder : List SpecProp :=
  [.reach, .overflow, .memFree, .memDeref, .memTrack]

/-- Expected process exit code of each property signature. -/
def expected_returncode_of : SpecProp → Int
  | .reach => 107
  | _ => 1

/-- Expected diagnostic substring of each property signature. -/
def expected_errmsg_of : SpecProp → String
  | .reach => EXPECTED_ERRMSG_REACH
  | .overflow => EXPECTED_ERRMSG_OVERFLOW
  | .memFree => EXPECTED_ERRMSG_MEM_FREE
  | .memDeref => EXPECTED_ERRMSG_MEM_DEREF
  | .memTrack => EXPECTED_ERRMSG_MEM_MEMTRACK

/-- The claim-side per-tag confirmation test: observed exit code equals the
tag's expected exit code and the expected diagnostic substring occurs in the
observed stderr. -/
def tagConfirms (r : ExecutionResult) (t : SpecProp) : Bool :=
  r.returncode == expected_returncode_of t &&
    strContains r.stderr (expected_errmsg_of t)

example :
    analyze_result ⟨107, "", "cpa_witness2test: violation hit"⟩ [SpecProp.reach] =
      (RESULT_ACCEPT, some SpecProp.reach) := by decide

example :
    analyze_result ⟨0, "", ""⟩ [SpecProp.reach, SpecProp.overflow] =
      (RESULT_REJECT, none) := by decide

example :
    analyze_result ⟨2, "", "x"⟩ [SpecProp.overflow] = (RESULT_UNK, none) := by decide

/-- The per-tag results computed by `analyze_result` for a list of tags. -/
def resultsFor (r : ExecutionResult) (ts : List SpecProp) : List (String × Option SpecProp) :=
  ts.map (fun t => _analyze_result_values r (expected_returncode_of t) (expected_errmsg_of t) t)

/-- The per-tag accept condition exactly as the code tests it (with the
stderr-truthiness guard). -/
def codeConfirms (r : ExecutionResult) (t : SpecProp) : Bool :=
  decide (r.returncode = expected_returncode_of t ∧ r.stderr ≠ "" ∧
    strContains r.stderr (expected_errmsg_of t) = true)

theorem strContains_empty (m : String) : strContains "" m = m.toList.isEmpty := rfl

theorem expected_errmsg_of_ne_empty (t : SpecProp) :
    (expected_errmsg_of t).toList.isEmpty = false := by
  cases t <;> decide

theorem strContains_ne_empty {s m : String} (hm : m.toList.isEmpty = false)
    (h : strContains s m = true) : s ≠ "" := by
  intro hs
  rw [hs, strContains_empty, hm] at h
  exact Bool.false_ne_true h

theorem codeConfirms_eq_tagConfirms (r : ExecutionResult) (t : SpecProp) :
    codeConfirms r t = tagConfirms r t := by
  rw [Bool.eq_iff_iff]
  simp only [codeConfirms, tagConfirms, decide_eq_true_eq, Bool.and_eq_true, beq_iff_eq]
  constructor
  · rintro ⟨h1, _, h3⟩
    exact ⟨h1, h3⟩
  · rintro ⟨h1, h3⟩
    exact ⟨h1, strContains_ne_empty (expected_errmsg_of_ne_empty t) h3, h3⟩

theorem values_eq (r : ExecutionResult) (t : SpecProp) :
    _analyze_result_values r (expected_returncode_of t) (expected_errmsg_of t) t =
      if codeConfirms r t then (RESULT_ACCEPT, some t)
      else if r.returncode = 0 then (RESULT_REJECT, none)
      else (RESULT_UNK, none) := by
  unfold _analyze_result_values
  by_cases h : r.returncode = expected_returncode_of t ∧ r.stderr ≠ "" ∧
      strContains r.stderr (expected_errmsg_of t) = true
  · have hb : codeConfirms r t = true := by simp [codeConfirms, h]
    rw [if_pos h, hb, if_pos rfl]
  · have hb : codeConfirms r t = false := by simp [codeConfirms, h]
    rw [if_neg h, hb, if_neg Bool.false_ne_true]

theorem find?_cons_eq {α : Type} (p : α → Bool) (a : α) (l : List α) :
    List.find? p (a :: l) = if p a then some a else List.find? p l := by
  by_cases h : p a = true
  · rw [List.find?_cons_of_pos _ h, if_pos h]
  · rw [List.find?_cons_of_neg _ h, if_neg h]

theorem find?_resultsFor (r : ExecutionResult) (ts : List SpecProp) :
    (resultsFor r ts).find? (fun p => p.1 == RESULT_ACCEPT) =
      (ts.find? (fun t => tagConfirms r t)).map (fun t => (RESULT_ACCEPT, some t)) := by
  induction ts with
  | nil => rfl
  | cons t ts ih =>
    simp only [resultsFor, List.map_cons]
    rw [values_eq, codeConfirms_eq_tagConfirms]
    by_cases h : tagConfirms r t = true
    · simp [h, find?_cons_eq, RESULT_ACCEPT]
    · by_cases h0 : r.returncode = 0 <;>
        simp only [h, h0, if_pos, if_neg, if_true, if_false, Bool.false_eq_true,
          find?_cons_eq] <;>
        simp [RESULT_ACCEPT, RESULT_REJECT, RESULT_UNK, h, h0] <;>
        simpa [resultsFor] using ih

theorem any_unk_resultsFor (r : ExecutionResult) (ts : List SpecProp)
    (hna : ∀ t ∈ ts, tagConfirms r t = false) :
    (resultsFor r ts).any (fun p => p.1 == RESULT_UNK) =
      (decide (¬ r.returncode = 0) && !ts.isEmpty) := by
  induction ts with
  | nil => simp [resultsFor]
  | cons t ts ih =>
    have ht : ¬ tagConfirms r t = true := by
      rw [hna t (by simp)]
      exact Bool.false_ne_true
    simp only [resultsFor, List.map_cons, List.any_cons]
    rw [values_eq, codeConfirms_eq_tagConfirms, if_neg ht]
    have ihr := ih (fun t ht' => hna t (by simp [ht']))
    simp only [resultsFor] at ihr
    by_cases h0 : r.returncode = 0
    · rw [if_pos h0]
      have hh : (((RESULT_REJECT, none) : String × Option SpecProp).1 == RESULT_UNK) = false := by
        decide
      rw [hh]
      simp only [Bool.false_or]
      rw [ihr]
      simp [h0]
    · rw [if_neg h0]
      have hh : (((RESULT_UNK, none) : String × Option SpecProp).1 == RESULT_UNK) = true := by
        decide
      rw [hh]
      simp [h0]

theorem mem_registryOrder (t : SpecProp) : t ∈ registryOrder := by
  cases t <;> decide

theorem checksFor_eq (specification : List SpecProp) :
    checksFor specification =
      (registryOrder.filter (fun t => decide (t ∈ specification))).map
        (fun t => (expected_returncode_of t, expected_errmsg_of t, t)) := by
  by_cases h1 : SpecProp.reach ∈ specification <;>
    by_cases h2 : SpecProp.overflow ∈ specification <;>
      by_cases h3 : SpecProp.memFree ∈ specification <;>
        by_cases h4 : SpecProp.memDeref ∈ specification <;>
          by_cases h5 : SpecProp.memTrack ∈ specification <;>
            simp [checksFor, registryOrder, h1, h2, h3, h4, h5,
              expected_returncode_of, expected_errmsg_of]

/-- Claim C1: for a non-empty active property set, `analyze_result` returns
`(RESULT_ACCEPT, tag)` for the first tag in registry order (reach, overflow,
valid-free, valid-deref, valid-memtrack) present in the set whose expected
exit code (107 for reach, 1 otherwise) equals the observed exit code and
whose expected diagnostic substring occurs in the observed stderr; when no
tag confirms it returns `RESULT_REJECT` (not reproduced) exactly when the
observed exit code is zero and `RESULT_UNK` (inconclusive) otherwise. -/
theorem analyze_result_classifies (r : ExecutionResult) (specification : List SpecProp)
    (hne : specification ≠ []) :
    analyze_result r specification =
      match (registryOrder.filter (fun t => decide (t ∈ specification))).find?
          (fun t => tagConfirms r t) with
      | some t => (RESULT_ACCEPT, some t)
      | none => if r.returncode = 0 then (RESULT_REJECT, none)
                else (RESULT_UNK, none) := by
  have hmap : (checksFor specification).map
      (fun c => _analyze_result_values r c.1 c.2.1 c.2.2) =
      resultsFor r (registryOrder.filter (fun t => decide (t ∈ specification))) := by
    rw [checksFor_eq, resultsFor, List.map_map]
    rfl
  simp only [analyze_result]
  rw [hmap, find?_resultsFor]
  cases hfind : (registryOrder.filter (fun t => decide (t ∈ specification))).find?
      (fun t => tagConfirms r t) with
  | some t => simp
  | none =>
    simp only [Option.map_none']
    have hna : ∀ t ∈ registryOrder.filter (fun t => decide (t ∈ specification)),
        tagConfirms r t = false := by
      intro t ht
      have := List.find?_eq_none.mp hfind t ht
      simpa using this
    rw [any_unk_resultsFor r _ hna]
    have hnonempty :
        (registryOrder.filter (fun t => decide (t ∈ specification))).isEmpty = false := by
      rw [List.isEmpty_eq_false]
      obtain ⟨t, ht⟩ := List.exists_mem_of_ne_nil specification hne
      refine List.ne_nil_of_mem (a := t) ?_
      rw [List.mem_filter]
      exact ⟨mem_registryOrder t, by simpa using ht⟩
    rw [hnonempty]
    by_cases h0 : r.returncode = 0 <;> simp [h0]

/-- Witness for `analyze_result_classifies` at a concrete input. -/
theorem analyze_result_classifies_witness :
    ([SpecProp.overflow, SpecProp.reach] : List SpecProp) ≠ [] ∧
    analyze_result ⟨1, "", "x runtime error: overflow"⟩ [SpecProp.overflow, SpecProp.reach] =
      match (registryOrder.filter
          (fun t => decide (t ∈ ([SpecProp.overflow, SpecProp.reach] : List SpecProp)))).find?
          (fun t => tagConfirms ⟨1, "", "x runtime error: overflow"⟩ t) with
      | some t => (RESULT_ACCEPT, some t)
      | none => if (1 : Int) = 0 then (RESULT_REJECT, none) else (RESULT_UNK, none) :=
  ⟨by decide, analyze_result_classifies ⟨1, "", "x runtime error: overflow"⟩
    [SpecProp.overflow, SpecProp.reach] (by decide)⟩

/-- Python's `\s` character class: `[ \t\n\r\f\v]`. -/
def isPySpace (c : Char) : Bool :=
  c == ' ' || c == '\t' || c == '\n' || c == '\r' || c == '\x0c' || c == '\x0b'

/-- A token of the simple patterns used by the script: a literal fragment or
a `\s*` gap.  In every pattern below each literal begins with a non-space
character, so greedy whitespace consumption is exact for `\s*`. -/
inductive PatTok
  | lit (s : List Char)
  | ws

/-- Match a token list against a prefix of `cs` (anchored). -/
def matchToks : List PatTok → List Char → Bool
  | [], _ => true
  | PatTok.lit l :: rest, cs => l.isPrefixOf cs && matchToks rest (cs.drop l.length)
  | PatTok.ws :: rest, cs => matchToks rest (cs.dropWhile isPySpace)

/-- `re.search` of a token pattern: match at some position of `cs`. -/
def searchToks (toks : List PatTok) : List Char → Bool
  | [] => matchToks toks []
  | c :: cs => matchToks toks (c :: cs) || searchToks toks cs

/-- `REGEX_REACH`: `G\s*!\s*call\(\s*__VERIFIER_error\(\)\s*\)`. -/
def REGEX_REACH : List PatTok :=
  [.lit "G".toList, .ws, .lit "!".toList, .ws, .lit "call(".toList, .ws,
   .lit "__VERIFIER_error()".toList, .ws, .lit ")".toList]

/-- `REGEX_OVERFLOW`: `G\s*!\s*overflow`. -/
def REGEX_OVERFLOW : List PatTok :=
  [.lit "G".toList, .ws, .lit "!".toList, .ws, .lit "overflow".toList]

/-- `REGEX_MEM_FREE`: `G\s*valid-free`. -/
def REGEX_MEM_FREE : List PatTok := [.lit "G".toList, .ws, .lit "valid-free".toList]

/-- `REGEX_MEM_DEREF`: `G\s*valid-deref`. -/
def REGEX_MEM_DEREF : List PatTok := [.lit "G".toList, .ws, .lit "valid-deref".toList]

/-- `REGEX_MEM_MEMTRACK`: `G\s*valid-memtrack`. -/
def REGEX_MEM_MEMTRACK : List PatTok := [.lit "G".toList, .ws, .lit "valid-memtrack".toList]

/-- The recognition pattern of each property (the `SPECIFICATIONS` table). -/
def spec_regex : SpecProp → List PatTok
  | .reach => REGEX_REACH
  | .overflow => REGEX_OVERFLOW
  | .memFree => REGEX_MEM_FREE
  | .memDeref => REGEX_MEM_DEREF
  | .memTrack => REGEX_MEM_MEMTRACK

/-- Iteration order of the `SPECIFICATIONS` dict (insertion order). -/
def SPECIFICATIONS : List SpecProp := [.reach, .overflow, .memFree, .memDeref, .memTrack]

/-- Python `str.strip()`: remove leading and trailing whitespace. -/
def pyStrip (cs : List Char) : List Char :=
  ((cs.dropWhile isPySpace).reverse.dropWhile isPySpace).reverse

/-- Drop a literal prefix, or fail. -/
def stripLit (l cs : List Char) : Option (List Char) :=
  if l.isPrefixOf cs then some (cs.drop l.length) else none

/-- Try `f` at `n, n-1, ..., 0` and return the first success: backtracking
for a greedy `.*`. -/
def tryDown {α : Type} (f : Nat → Option α) : Nat → Option α
  | 0 => f 0
  | n + 1 =>
    match f (n + 1) with
    | some r => some r
    | none => tryDown f n

/-- Try `f` at `n, n-1, ..., 1` and return the first success: backtracking
for a greedy `.+`. -/
def tryDown1 {α : Type} (f : Nat → Option α) : Nat → Option α
  | 0 => none
  | n + 1 =>
    match f (n + 1) with
    | some r => some r
    | none => tryDown1 f n

/-- `re.match("CHECK\(\s*init\(.*\),\s*LTL\(\s*(.+)\s*\)\r*\n*", content)`:
anchored match with Python's leftmost-greedy backtracking; returns the text
captured by the group `(.+)` when the outer shape matches.  `.` does not
match a newline; the trailing `\r*\n*` always succeeds and is dropped. -/
def spec_match (cs : List Char) : Option (List Char) :=
  match stripLit "CHECK(".toList cs with
  | none => none
  | some cs1 =>
    match stripLit "init(".toList (cs1.dropWhile isPySpace) with
    | none => none
    | some cs3 =>
      tryDown (fun i =>
        match stripLit "),".toList (cs3.drop i) with
        | none => none
        | some cs5 =>
          match stripLit "LTL(".toList (cs5.dropWhile isPySpace) with
          | none => none
          | some cs7 =>
            tryDown (fun w =>
              let cs8 := cs7.drop w
              tryDown1 (fun j =>
                match stripLit ")".toList ((cs8.drop j).dropWhile isPySpace) with
                | some _ => some (cs8.take j)
                | none => none)
                ((cs8.takeWhile (fun c => !(c == '\n'))).length))
              ((cs7.takeWhile isPySpace).length))
        ((cs3.takeWhile (fun c => !(c == '\n'))).length)

/-- The specification list constructed by `get_spec` before the assert: when
the outer `CHECK(init(...), LTL(...))` shape matches, every property whose
recognition pattern occurs somewhere in the (whole, stripped) document text
is appended, in `SPECIFICATIONS` order. -/
def get_spec_list (content : List Char) : List SpecProp :=
  match spec_match content with
  | some _ => SPECIFICATIONS.filter (fun s => searchToks (spec_regex s) content)
  | none => []

/-- Raised Python exceptions.  `validationError` is the script's
`ValidationError`; `assertionError` is a failing `assert` statement;
`attributeError` is the `AttributeError` raised by `.group(1)` on a failed
`re.search`.  The top-level handler catches only `ValidationError`. -/
inductive RunError
  | validationError (msg : String)
  | assertionError (msg : String)
  | attributeError
deriving DecidableEq

/-- `get_spec` from the script, applied to the text of the specification
file: strip the content, collect the recognized properties, and `assert`
that the list is non-empty. -/
def get_spec (fileContent : String) : Except RunError (List SpecProp) :=
  let content := pyStrip fileContent.toList
  let specification := get_spec_list content
  if specification.isEmpty then
    .error (.assertionError
      ("No specification found for specification string: " ++ String.mk content))
  else
    .ok specification

example : get_spec "CHECK( init(main()), LTL( G ! call(__VERIFIER_error()) ) )" =
    .ok [SpecProp.reach] := rfl

example : get_spec "CHECK( init(main()), LTL( G ! overflow ) )" =
    .ok [SpecProp.overflow] := rfl

example : (get_spec "no check clause here").isOk = false := by decide

/-- Command-line arguments relevant to the verdict engine, as parsed by
`_parse_args`: pass-through compiler arguments, machine model string, input
file, output directory, statistics toggle. -/
structure Args where
  gcc_args : List String
  machine_model : String
  file : String
  output_path : String
  stats : Bool

/-- `_create_gcc_basic_args`: fixed flags, pass-through arguments and the
machine-model flag; any other machine-model string raises `ValidationError`. -/
def _create_gcc_basic_args (args : Args) : Except RunError (List String) :=
  let gcc_args := GCC_ARGS_FIXED ++ args.gcc_args
  if args.machine_model = MACHINE_MODEL_64 then .ok (gcc_args ++ ["-m64"])
  else if args.machine_model = MACHINE_MODEL_32 then .ok (gcc_args ++ ["-m32"])
  else .error (.validationError "Neither 32 nor 64 bit machine model specified")

/-- `_create_gcc_cmd_tail(harness, file, target) = ['-o', target, harness, file]`. -/
def _create_gcc_cmd_tail (harness file target : String) : List String :=
  ["-o", target, harness, file]

/-- `create_compile_cmd` from the script.  `clangAvailable` is the outcome of
the `shutil.which('clang')` probe the function performs on every call; the
compiler is `clang` when the probe succeeds and `gcc` otherwise. -/
def create_compile_cmd (harness target : String) (args : Args)
    (specification : List SpecProp) (clangAvailable : Bool) (c_version : String) :
    Except RunError (List String) :=
  let compiler := if clangAvailable then "clang" else "gcc"
  match _create_gcc_basic_args args with
  | .error e => .error e
  | .ok basic =>
    let gcc_cmd := compiler :: basic ++ ["-std=" ++ c_version]
    let pair1 :=
      if SpecProp.overflow ∈ specification then
        (gcc_cmd ++ ["-fsanitize=signed-integer-overflow", "-fsanitize=float-cast-overflow"],
         true)
      else (gcc_cmd, false)
    let pair2 :=
      if SpecProp.memFree ∈ specification ∨ SpecProp.memDeref ∈ specification ∨
          SpecProp.memTrack ∈ specification then
        (pair1.1 ++ ["-fsanitize=address", "-fsanitize=leak"], true)
      else pair1
    let cmd := if pair2.2 then pair2.1 ++ ["-fno-sanitize-recover"] else pair2.1
    .ok (cmd ++ _create_gcc_cmd_tail harness args.file target)

/-- The five sanitizer-related flags the builder may add. -/
def sanitizerFlags : List String :=
  ["-fsanitize=signed-integer-overflow", "-fsanitize=float-cast-overflow",
   "-fsanitize=address", "-fsanitize=leak", "-fno-sanitize-recover"]

example :
    create_compile_cmd "1.harness.c" "out/test_cex1"
      ⟨[], "32bit", "prog.c", "out", false⟩ [SpecProp.overflow] true "gnu11" =
    .ok ["clang", "-D__alias__(x)=", "-m32", "-std=gnu11",
         "-fsanitize=signed-integer-overflow", "-fsanitize=float-cast-overflow",
         "-fno-sanitize-recover", "-o", "out/test_cex1", "1.harness.c", "prog.c"] := rfl

example :
    create_compile_cmd "1.harness.c" "t" ⟨[], "32bit", "p.c", "out", false⟩
      [SpecProp.reach] false "gnu11" =
    .ok ["gcc", "-D__alias__(x)=", "-m32", "-std=gnu11", "-o", "t", "1.harness.c", "p.c"] := rfl

theorem std_flag_ne (c_version f : String) (hf : f ∈ sanitizerFlags) :
    ("-std=" ++ c_version) ≠ f := by
  intro h
  have hpre : "-std=".toList <+: f.toList := by
    rw [← h]
    exact List.prefix_append _ _
  revert hpre
  simp only [sanitizerFlags, List.mem_cons, List.not_mem_nil, or_false] at hf
  rcases hf with rfl | rfl | rfl | rfl | rfl <;> decide

/-- The command value produced by a successful `create_compile_cmd`, split
into its five segments in order: base command, overflow sanitizers, memory
sanitizers, no-recovery flag, tail. -/
def builtCmd (compiler : String) (basic : List String) (c_version : String)
    (specification : List SpecProp) (harness file target : String) : List String :=
  (compiler :: basic ++ ["-std=" ++ c_version]) ++
  (if SpecProp.overflow ∈ specification then
    ["-fsanitize=signed-integer-overflow", "-fsanitize=float-cast-overflow"] else []) ++
  (if SpecProp.memFree ∈ specification ∨ SpecProp.memDeref ∈ specification ∨
      SpecProp.memTrack ∈ specification then
    ["-fsanitize=address", "-fsanitize=leak"] else []) ++
  (if SpecProp.overflow ∈ specification ∨ SpecProp.memFree ∈ specification ∨
      SpecProp.memDeref ∈ specification ∨ SpecProp.memTrack ∈ specification then
    ["-fno-sanitize-recover"] else []) ++
  _create_gcc_cmd_tail harness file target

theorem create_compile_cmd_ok (harness target : String) (args : Args)
    (specification : List SpecProp) (clangAvailable : Bool) (c_version : String)
    (basic : List String) (hbasic : _create_gcc_basic_args args = .ok basic) :
    create_compile_cmd harness target args specification clangAvailable c_version =
      .ok (builtCmd (if clangAvailable then "clang" else "gcc") basic c_version
        specification harness args.file target) := by
  by_cases ho : SpecProp.overflow ∈ specification <;>
    by_cases hm : SpecProp.memFree ∈ specification ∨ SpecProp.memDeref ∈ specification ∨
      SpecProp.memTrack ∈ specification <;>
    simp [create_compile_cmd, builtCmd, hbasic, ho, hm]

/-- Claim C5: the compile command contains the two overflow-sanitizer flags
exactly when `no-overflow` is active, the address and leak sanitizer flags
exactly when one of the three memory-safety properties is active, and the
no-recovery flag exactly once iff any sanitizer flag was added (hence no
sanitizer and no no-recovery flag for `{Reachability}` alone), provided the
caller-supplied paths and pass-through compiler arguments do not themselves
mention a sanitizer flag. -/
theorem create_compile_cmd_sanitizer_flags (harness target : String) (args : Args)
    (specification : List SpecProp) (clangAvailable : Bool) (c_version : String)
    (hmm : args.machine_model = MACHINE_MODEL_32 ∨ args.machine_model = MACHINE_MODEL_64)
    (hclean : ∀ f ∈ sanitizerFlags,
      f ∉ args.gcc_args ∧ f ≠ harness ∧ f ≠ target ∧ f ≠ args.file) :
    ∃ cmd,
      create_compile_cmd harness target args specification clangAvailable c_version =
        .ok cmd ∧
      cmd.count "-fsanitize=signed-integer-overflow" =
        (if SpecProp.overflow ∈ specification then 1 else 0) ∧
      cmd.count "-fsanitize=float-cast-overflow" =
        (if SpecProp.overflow ∈ specification then 1 else 0) ∧
      cmd.count "-fsanitize=address" =
        (if SpecProp.memFree ∈ specification ∨ SpecProp.memDeref ∈ specification ∨
            SpecProp.memTrack ∈ specification then 1 else 0) ∧
      cmd.count "-fsanitize=leak" =
        (if SpecProp.memFree ∈ specification ∨ SpecProp.memDeref ∈ specification ∨
            SpecProp.memTrack ∈ specification then 1 else 0) ∧
      cmd.count "-fno-sanitize-recover" =
        (if SpecProp.overflow ∈ specification ∨ SpecProp.memFree ∈ specification ∨
            SpecProp.memDeref ∈ specification ∨ SpecProp.memTrack ∈ specification
          then 1 else 0) := by
  obtain ⟨mflag, hmf, hbasic⟩ :
      ∃ mf, (mf = "-m64" ∨ mf = "-m32") ∧
        _create_gcc_basic_args args = .ok (GCC_ARGS_FIXED ++ args.gcc_args ++ [mf]) := by
    rcases hmm with h | h
    · exact ⟨"-m32", Or.inr rfl, by
        simp [_create_gcc_basic_args, h, MACHINE_MODEL_32, MACHINE_MODEL_64]⟩
    · exact ⟨"-m64", Or.inl rfl, by
        simp [_create_gcc_basic_args, h, MACHINE_MODEL_64]⟩
  have hga : ∀ f ∈ sanitizerFlags, args.gcc_args.count f = 0 :=
    fun f hf => List.count_eq_zero.mpr (hclean f hf).1
  have htg : ∀ f ∈ sanitizerFlags, (target == f) = false :=
    fun f hf => beq_eq_false_iff_ne.mpr (Ne.symm (hclean f hf).2.2.1)
  have hhr : ∀ f ∈ sanitizerFlags, (harness == f) = false :=
    fun f hf => beq_eq_false_iff_ne.mpr (Ne.symm (hclean f hf).2.1)
  have hfl : ∀ f ∈ sanitizerFlags, (args.file == f) = false :=
    fun f hf => beq_eq_false_iff_ne.mpr (Ne.symm (hclean f hf).2.2.2)
  have hst : ∀ f ∈ sanitizerFlags, (("-std=" ++ c_version) == f) = false :=
    fun f hf => beq_eq_false_iff_ne.mpr (std_flag_ne c_version f hf)
  rcases hmf with rfl | rfl <;> cases clangAvailable <;>
    by_cases ho : SpecProp.overflow ∈ specification <;>
    by_cases hm : SpecProp.memFree ∈ specification ∨ SpecProp.memDeref ∈ specification ∨
      SpecProp.memTrack ∈ specification <;>
    refine ⟨_, create_compile_cmd_ok harness target args specification _ c_version _ hbasic,
      ?_, ?_, ?_, ?_, ?_⟩ <;>
    simp [builtCmd, _create_gcc_cmd_tail, GCC_ARGS_FIXED, ho, hm, sanitizerFlags,
      List.count_append, List.count_cons, hga, htg, hhr, hfl, hst]

/-- Witness for `create_compile_cmd_sanitizer_flags` at a concrete input. -/
theorem create_compile_cmd_sanitizer_flags_witness :
    ((⟨[], "32bit", "p.c", "out", false⟩ : Args).machine_model = MACHINE_MODEL_32 ∨
      (⟨[], "32bit", "p.c", "out", false⟩ : Args).machine_model = MACHINE_MODEL_64) ∧
    (∀ f ∈ sanitizerFlags,
      f ∉ (⟨[], "32bit", "p.c", "out", false⟩ : Args).gcc_args ∧ f ≠ "1.harness.c" ∧
        f ≠ "out/test_cex1" ∧ f ≠ (⟨[], "32bit", "p.c", "out", false⟩ : Args).file) ∧
    ∃ cmd,
      create_compile_cmd "1.harness.c" "out/test_cex1" ⟨[], "32bit", "p.c", "out", false⟩
        [SpecProp.overflow] true "gnu11" = .ok cmd ∧
      cmd.count "-fsanitize=signed-integer-overflow" =
        (if SpecProp.overflow ∈ [SpecProp.overflow] then 1 else 0) ∧
      cmd.count "-fsanitize=float-cast-overflow" =
        (if SpecProp.overflow ∈ [SpecProp.overflow] then 1 else 0) ∧
      cmd.count "-fsanitize=address" =
        (if SpecProp.memFree ∈ [SpecProp.overflow] ∨ SpecProp.memDeref ∈ [SpecProp.overflow] ∨
            SpecProp.memTrack ∈ [SpecProp.overflow] then 1 else 0) ∧
      cmd.count "-fsanitize=leak" =
        (if SpecProp.memFree ∈ [SpecProp.overflow] ∨ SpecProp.memDeref ∈ [SpecProp.overflow] ∨
            SpecProp.memTrack ∈ [SpecProp.overflow] then 1 else 0) ∧
      cmd.count "-fno-sanitize-recover" =
        (if SpecProp.overflow ∈ [SpecProp.overflow] ∨ SpecProp.memFree ∈ [SpecProp.overflow] ∨
            SpecProp.memDeref ∈ [SpecProp.overflow] ∨ SpecProp.memTrack ∈ [SpecProp.overflow]
          then 1 else 0) :=
  ⟨Or.inl rfl, by decide,
    create_compile_cmd_sanitizer_flags "1.harness.c" "out/test_cex1"
      ⟨[], "32bit", "p.c", "out", false⟩ [SpecProp.overflow] true "gnu11"
      (Or.inl rfl) (by decide)⟩

/-- `get_target_name`: `re.search(r'(\d+)\.harness\.c', harness_name)` takes
the leftmost digit run immediately followed by `.harness.c`; the digits are
greedy and the character after a maximal digit run is never a digit, so no
backtracking is needed.  When the search fails, `.group(1)` raises
`AttributeError` (modelled as `none`). -/
def targetDigitsAux : List Char → Option (List Char)
  | [] => none
  | c :: cs =>
    let ds := (c :: cs).takeWhile Char.isDigit
    if ds.isEmpty = false &&
        ".harness.c".toList.isPrefixOf ((c :: cs).drop ds.length) then
      some ds
    else
      targetDigitsAux cs

/-- `get_target_name` returns `"test_cex" + <digits>`. -/
def get_target_name (harness_name : String) : Option String :=
  (targetDigitsAux harness_name.toList).map (fun ds => "test_cex" ++ String.mk ds)

example : get_target_name "output/1.harness.c" = some "test_cex1" := rfl

example : get_target_name "out/12.harness.c" = some "test_cex12" := rfl

example : get_target_name "noharness" = none := rfl

/-- One externally observable action of the run: building and executing a
compile command for a harness, or executing a harness's test binary. -/
inductive Event
  | compileCmd (harness : String) (cmd : List String)
  | runBinary (harness : String) (target : String)
deriving DecidableEq

/-- The externally determined behaviour of one harness: the results of the
gnu11 compile attempt, of the gnu90 fallback attempt, and of executing the
compiled test binary. -/
structure HarnessBehavior where
  name : String
  compileC11 : ExecutionResult
  compileC90 : ExecutionResult
  testResult : ExecutionResult

/-- Per-run configuration of the harness loop: parsed arguments, the active
property set, and the environment's answer to the n-th `shutil.which('clang')`
probe. -/
structure RunConfig where
  args : Args
  specification : List SpecProp
  clangAvail : Nat → Bool

/-- Mutable state of the `run` loop of the script: the `shutil.which` probe
counter, the trace of issued external commands, the two output-capture
files, the statistics counters, and the verdict accumulators.  `broken`
records that the loop was left by `break`. -/
structure LoopState where
  whichCalls : Nat
  events : List Event
  stdoutFile : Option String
  stderrFile : Option String
  iterCount : Nat
  compileSuccessCount : Nat
  c11SuccessCount : Nat
  rejectCount : Nat
  finalResult : Option String
  violatedProperty : Option SpecProp
  successfulHarness : Option String
  broken : Bool

/-- The part of a loop iteration after a successful compilation: execute the
test binary, persist non-empty stdout/stderr captures (note: an empty capture
leaves the file from a previous iteration untouched), classify, and update
the verdict accumulators exactly as lines 436-462 of the script do. -/
def afterCompile (cfg : RunConfig) (h : HarnessBehavior) (exe_target : String)
    (s : LoopState) : LoopState :=
  let s := { s with compileSuccessCount := s.compileSuccessCount + 1 }
  let s := { s with events := s.events ++ [Event.runBinary h.name exe_target] }
  let s := if h.testResult.stdout ≠ "" then { s with stdoutFile := some h.testResult.stdout }
           else s
  let s := if h.testResult.stderr ≠ "" then { s with stderrFile := some h.testResult.stderr }
           else s
  let rv := analyze_result h.testResult cfg.specification
  if rv.1 = RESULT_ACCEPT then
    { s with successfulHarness := some h.name,
             finalResult := some RESULT_ACCEPT,
             violatedProperty := if s.violatedProperty = none then rv.2 else s.violatedProperty,
             broken := true }
  else if rv.1 = RESULT_REJECT then
    { s with rejectCount := s.rejectCount + 1,
             finalResult := if s.finalResult = none then some RESULT_REJECT else s.finalResult }
  else
    { s with finalResult := some RESULT_UNK }

/-- One iteration of the harness loop (lines 414-462 of the script).  When
`broken` is set the iteration is skipped (the Python loop has already been
left).  `shutil.which('clang')` is queried inside `create_compile_cmd`, i.e.
once per built compile command. -/
def processHarness (cfg : RunConfig) (s : LoopState) (h : HarnessBehavior) :
    Except RunError LoopState :=
  if s.broken then .ok s else
  let s1 := { s with iterCount := s.iterCount + 1 }
  match get_target_name h.name with
  | none => .error RunError.attributeError
  | some tname =>
    let exe_target := cfg.args.output_path ++ "/" ++ tname
    match create_compile_cmd h.name exe_target cfg.args cfg.specification
        (cfg.clangAvail s1.whichCalls) "gnu11" with
    | .error e => .error e
    | .ok cmd1 =>
      let s2 := { s1 with whichCalls := s1.whichCalls + 1,
                          events := s1.events ++ [Event.compileCmd h.name cmd1] }
      if h.compileC11.returncode ≠ 0 then
        match create_compile_cmd h.name exe_target cfg.args cfg.specification
            (cfg.clangAvail s2.whichCalls) "gnu90" with
        | .error e => .error e
        | .ok cmd2 =>
          let s3 := { s2 with whichCalls := s2.whichCalls + 1,
                              events := s2.events ++ [Event.compileCmd h.name cmd2] }
          if h.compileC90.returncode ≠ 0 then .ok s3
          else .ok (afterCompile cfg h exe_target s3)
      else
        .ok (afterCompile cfg h exe_target
          { s2 with c11SuccessCount := s2.c11SuccessCount + 1 })

/-- The harness loop of `run`, driven over the discovered harnesses. -/
def runLoop (cfg : RunConfig) (s : LoopState) : List HarnessBehavior →
    Except RunError LoopState
  | [] => .ok s
  | h :: t =>
    match processHarness cfg s h with
    | .error e => .error e
    | .ok s' => runLoop cfg s' t

/-- The loop state at the start of `run`. -/
def initState : LoopState :=
  { whichCalls := 0, events := [], stdoutFile := none, stderrFile := none,
    iterCount := 0, compileSuccessCount := 0, c11SuccessCount := 0, rejectCount := 0,
    finalResult := none, violatedProperty := none, successfulHarness := none,
    broken := false }

/-- The externally supplied environment of one whole run: the parsed
arguments, the text of the specification file, the location of the CPAchecker
executable (`none` when `get_cpachecker_executable` finds nothing), the
result of the harness-generation step, the discovered harnesses in iteration
order, and the answers to the successive `shutil.which('clang')` probes. -/
structure RunEnv where
  args : Args
  specContent : String
  cpaExecutable : Option String
  harnessGenResult : ExecutionResult
  harnesses : List HarnessBehavior
  clangAvail : Nat → Bool

/-- The observable outcome of a completed `run`: the final loop state and the
`Verification result:` line printed at the end. -/
structure RunOutput where
  finalState : LoopState
  resultLine : String

/-- `run` from the script: parse the specification (which may raise an
`AssertionError`), locate the CPAchecker executable (which may raise a
`ValidationError`), generate and iterate over the harnesses, raise a
`ValidationError` when no harness compiled, and otherwise print the final
`Verification result:` line, appending the violated property when any.
Python prints `str(None)` as `None` when `final_result` was never set. -/
def run_model (env : RunEnv) : Except RunError RunOutput :=
  match get_spec env.specContent with
  | .error e => .error e
  | .ok specification =>
    match env.cpaExecutable with
    | none => .error (.validationError "CPAchecker executable not found or not executable!")
    | some _ =>
      let cfg : RunConfig := ⟨env.args, specification, env.clangAvail⟩
      match runLoop cfg initState env.harnesses with
      | .error e => .error e
      | .ok s =>
        if s.compileSuccessCount = 0 then
          .error (.validationError "Compilation failed for every harness/file pair.")
        else
          let base := "Verification result: " ++
            (match s.finalResult with
             | some v => v
             | none => "None")
          let line :=
            match s.violatedProperty with
            | some p =>
              base ++ ". Property violation (" ++ spec_name p ++
                ") found by chosen configuration."
            | none => base
          .ok ⟨s, line⟩

/-- The top level of the script: `run()` inside `try/except ValidationError`.
A `ValidationError` is caught and reported as `Verification result: ERROR.`;
any other exception escapes and no verification-result line is printed
(modelled as `none`). -/
def main_model (env : RunEnv) : Option String :=
  match run_model env with
  | .ok o => some o.resultLine
  | .error (RunError.validationError _) => some "Verification result: ERROR."
  | .error _ => none

/-- The harness an event belongs to. -/
def eventHarness : Event → String
  | .compileCmd h _ => h
  | .runBinary h _ => h

theorem processHarness_broken (cfg : RunConfig) (s : LoopState) (h : HarnessBehavior)
    (hb : s.broken = true) : processHarness cfg s h = .ok s := by
  simp [processHarness, hb]

theorem runLoop_broken (cfg : RunConfig) (s : LoopState) (hs : List HarnessBehavior)
    (hb : s.broken = true) : runLoop cfg s hs = .ok s := by
  induction hs with
  | nil => rfl
  | cons h t ih => simp [runLoop, processHarness_broken cfg s h hb, ih]

theorem runLoop_append (cfg : RunConfig) (s : LoopState) (l₁ l₂ : List HarnessBehavior) :
    runLoop cfg s (l₁ ++ l₂) =
      match runLoop cfg s l₁ with
      | .error e => .error e
      | .ok s' => runLoop cfg s' l₂ := by
  induction l₁ generalizing s with
  | nil => rfl
  | cons h t ih =>
    simp only [List.cons_append, runLoop]
    cases processHarness cfg s h with
    | error e => rfl
    | ok s' => exact ih s'

/-- Explicit record form of `afterCompile`. -/
theorem afterCompile_eq (cfg : RunConfig) (h : HarnessBehavior) (tgt : String)
    (s : LoopState) :
    afterCompile cfg h tgt s =
      { whichCalls := s.whichCalls,
        events := s.events ++ [Event.runBinary h.name tgt],
        stdoutFile := if h.testResult.stdout ≠ "" then some h.testResult.stdout
                      else s.stdoutFile,
        stderrFile := if h.testResult.stderr ≠ "" then some h.testResult.stderr
                      else s.stderrFile,
        iterCount := s.iterCount,
        compileSuccessCount := s.compileSuccessCount + 1,
        c11SuccessCount := s.c11SuccessCount,
        rejectCount :=
          if (analyze_result h.testResult cfg.specification).1 = RESULT_REJECT then
            s.rejectCount + 1 else s.rejectCount,
        finalResult :=
          if (analyze_result h.testResult cfg.specification).1 = RESULT_ACCEPT then
            some RESULT_ACCEPT
          else if (analyze_result h.testResult cfg.specification).1 = RESULT_REJECT then
            (if s.finalResult = none then some RESULT_REJECT else s.finalResult)
          else some RESULT_UNK,
        violatedProperty :=
          if (analyze_result h.testResult cfg.specification).1 = RESULT_ACCEPT ∧
              s.violatedProperty = none then
            (analyze_result h.testResult cfg.specification).2
          else s.violatedProperty,
        successfulHarness :=
          if (analyze_result h.testResult cfg.specification).1 = RESULT_ACCEPT then
            some h.name else s.successfulHarness,
        broken :=
          if (analyze_result h.testResult cfg.specification).1 = RESULT_ACCEPT then
            true else s.broken } := by
  unfold afterCompile
  by_cases ha : (analyze_result h.testResult cfg.specification).1 = RESULT_ACCEPT <;>
    by_cases hr : (analyze_result h.testResult cfg.specification).1 = RESULT_REJECT <;>
    by_cases hso : h.testResult.stdout ≠ "" <;>
    by_cases hse : h.testResult.stderr ≠ "" <;>
    simp_all [RESULT_ACCEPT, RESULT_REJECT]

theorem processHarness_noTarget (cfg : RunConfig) (s : LoopState) (h : HarnessBehavior)
    (hnb : s.broken = false) (ht : get_target_name h.name = none) :
    processHarness cfg s h = .error RunError.attributeError := by
  simp [processHarness, hnb, ht]

theorem processHarness_skip (cfg : RunConfig) (s : LoopState) (h : HarnessBehavior)
    (tname : String) (cmd1 cmd2 : List String)
    (hnb : s.broken = false)
    (ht : get_target_name h.name = some tname)
    (hc1 : create_compile_cmd h.name (cfg.args.output_path ++ "/" ++ tname) cfg.args
      cfg.specification (cfg.clangAvail s.whichCalls) "gnu11" = .ok cmd1)
    (h11 : h.compileC11.returncode ≠ 0)
    (hc2 : create_compile_cmd h.name (cfg.args.output_path ++ "/" ++ tname) cfg.args
      cfg.specification (cfg.clangAvail (s.whichCalls + 1)) "gnu90" = .ok cmd2)
    (h90 : h.compileC90.returncode ≠ 0) :
    processHarness cfg s h = .ok
      { s with iterCount := s.iterCount + 1,
               whichCalls := s.whichCalls + 2,
               events := s.events ++ [Event.compileCmd h.name cmd1] ++
                 [Event.compileCmd h.name cmd2] } := by
  simp [processHarness, hnb, ht, hc1, h11, hc2, h90]

theorem processHarness_compiledC11 (cfg : RunConfig) (s : LoopState) (h : HarnessBehavior)
    (tname : String) (cmd1 : List String)
    (hnb : s.broken = false)
    (ht : get_target_name h.name = some tname)
    (hc1 : create_compile_cmd h.name (cfg.args.output_path ++ "/" ++ tname) cfg.args
      cfg.specification (cfg.clangAvail s.whichCalls) "gnu11" = .ok cmd1)
    (h11 : h.compileC11.returncode = 0) :
    processHarness cfg s h = .ok (afterCompile cfg h (cfg.args.output_path ++ "/" ++ tname)
      { s with iterCount := s.iterCount + 1,
               whichCalls := s.whichCalls + 1,
               events := s.events ++ [Event.compileCmd h.name cmd1],
               c11SuccessCount := s.c11SuccessCount + 1 }) := by
  simp [processHarness, hnb, ht, hc1, h11]

theorem processHarness_compiledC90 (cfg : RunConfig) (s : LoopState) (h : HarnessBehavior)
    (tname : String) (cmd1 cmd2 : List String)
    (hnb : s.broken = false)
    (ht : get_target_name h.name = some tname)
    (hc1 : create_compile_cmd h.name (cfg.args.output_path ++ "/" ++ tname) cfg.args
      cfg.specification (cfg.clangAvail s.whichCalls) "gnu11" = .ok cmd1)
    (h11 : h.compileC11.returncode ≠ 0)
    (hc2 : create_compile_cmd h.name (cfg.args.output_path ++ "/" ++ tname) cfg.args
      cfg.specification (cfg.clangAvail (s.whichCalls + 1)) "gnu90" = .ok cmd2)
    (h90 : h.compileC90.returncode = 0) :
    processHarness cfg s h = .ok (afterCompile cfg h (cfg.args.output_path ++ "/" ++ tname)
      { s with iterCount := s.iterCount + 1,
               whichCalls := s.whichCalls + 2,
               events := s.events ++ [Event.compileCmd h.name cmd1] ++
                 [Event.compileCmd h.name cmd2] }) := by
  simp [processHarness, hnb, ht, hc1, h11, hc2, h90]

theorem processHarness_c1err (cfg : RunConfig) (s : LoopState) (h : HarnessBehavior)
    (tname : String) (e : RunError)
    (hnb : s.broken = false)
    (ht : get_target_name h.name = some tname)
    (hc1 : create_compile_cmd h.name (cfg.args.output_path ++ "/" ++ tname) cfg.args
      cfg.specification (cfg.clangAvail s.whichCalls) "gnu11" = .error e) :
    processHarness cfg s h = .error e := by
  simp [processHarness, hnb, ht, hc1]

theorem processHarness_c2err (cfg : RunConfig) (s : LoopState) (h : HarnessBehavior)
    (tname : String) (cmd1 : List String) (e : RunError)
    (hnb : s.broken = false)
    (ht : get_target_name h.name = some tname)
    (hc1 : create_compile_cmd h.name (cfg.args.output_path ++ "/" ++ tname) cfg.args
      cfg.specification (cfg.clangAvail s.whichCalls) "gnu11" = .ok cmd1)
    (h11 : h.compileC11.returncode ≠ 0)
    (hc2 : create_compile_cmd h.name (cfg.args.output_path ++ "/" ++ tname) cfg.args
      cfg.specification (cfg.clangAvail (s.whichCalls + 1)) "gnu90" = .error e) :
    processHarness cfg s h = .error e := by
  simp [processHarness, hnb, ht, hc1, h11, hc2]

/-- Inversion: every successful loop iteration is a skipped (already-broken)
iteration, a doubly failed compilation, or a compile-and-test iteration via
the gnu11 or the gnu90 attempt. -/
theorem processHarness_ok_inv (cfg : RunConfig) (s : LoopState) (h : HarnessBehavior)
    (s' : LoopState) (hstep : processHarness cfg s h = .ok s') :
    (s.broken = true ∧ s' = s) ∨
    (s.broken = false ∧ ∃ tname cmd1,
      get_target_name h.name = some tname ∧
      create_compile_cmd h.name (cfg.args.output_path ++ "/" ++ tname) cfg.args
        cfg.specification (cfg.clangAvail s.whichCalls) "gnu11" = .ok cmd1 ∧
      ((h.compileC11.returncode = 0 ∧
        s' = afterCompile cfg h (cfg.args.output_path ++ "/" ++ tname)
          { s with iterCount := s.iterCount + 1, whichCalls := s.whichCalls + 1,
                   events := s.events ++ [Event.compileCmd h.name cmd1],
                   c11SuccessCount := s.c11SuccessCount + 1 }) ∨
       (h.compileC11.returncode ≠ 0 ∧ ∃ cmd2,
         create_compile_cmd h.name (cfg.args.output_path ++ "/" ++ tname) cfg.args
           cfg.specification (cfg.clangAvail (s.whichCalls + 1)) "gnu90" = .ok cmd2 ∧
         ((h.compileC90.returncode ≠ 0 ∧
           s' = { s with iterCount := s.iterCount + 1, whichCalls := s.whichCalls + 2,
                         events := s.events ++ [Event.compileCmd h.name cmd1] ++
                           [Event.compileCmd h.name cmd2] }) ∨
          (h.compileC90.returncode = 0 ∧
           s' = afterCompile cfg h (cfg.args.output_path ++ "/" ++ tname)
             { s with iterCount := s.iterCount + 1, whichCalls := s.whichCalls + 2,
                      events := s.events ++ [Event.compileCmd h.name cmd1] ++
                        [Event.compileCmd h.name cmd2] }))))) := by
  by_cases hb : s.broken = true
  · rw [processHarness_broken cfg s h hb] at hstep
    injection hstep with h1
    exact Or.inl ⟨hb, h1.symm⟩
  · have hbf : s.broken = false := by simpa using hb
    refine Or.inr ⟨hbf, ?_⟩
    cases hgt : get_target_name h.name with
    | none =>
      rw [processHarness_noTarget cfg s h hbf hgt] at hstep
      exact absurd hstep (by simp)
    | some tname =>
      cases hc1 : create_compile_cmd h.name (cfg.args.output_path ++ "/" ++ tname) cfg.args
          cfg.specification (cfg.clangAvail s.whichCalls) "gnu11" with
      | error e =>
        rw [processHarness_c1err cfg s h tname e hbf hgt hc1] at hstep
        exact absurd hstep (by simp)
      | ok cmd1 =>
        refine ⟨tname, cmd1, rfl, hc1, ?_⟩
        by_cases h11 : h.compileC11.returncode = 0
        · left
          refine ⟨h11, ?_⟩
          rw [processHarness_compiledC11 cfg s h tname cmd1 hbf hgt hc1 h11] at hstep
          injection hstep with h1
          exact h1.symm
        · right
          refine ⟨h11, ?_⟩
          cases hc2 : create_compile_cmd h.name (cfg.args.output_path ++ "/" ++ tname)
              cfg.args cfg.specification (cfg.clangAvail (s.whichCalls + 1)) "gnu90" with
          | error e =>
            rw [processHarness_c2err cfg s h tname cmd1 e hbf hgt hc1 h11 hc2] at hstep
            exact absurd hstep (by simp)
          | ok cmd2 =>
            refine ⟨cmd2, rfl, ?_⟩
            by_cases h90 : h.compileC90.returncode = 0
            · right
              refine ⟨h90, ?_⟩
              rw [processHarness_compiledC90 cfg s h tname cmd1 cmd2 hbf hgt hc1 h11 hc2 h90]
                at hstep
              injection hstep with h1
              exact h1.symm
            · left
              refine ⟨h90, ?_⟩
              rw [processHarness_skip cfg s h tname cmd1 cmd2 hbf hgt hc1 h11 hc2
                (by simpa using h90)] at hstep
              injection hstep with h1
              exact h1.symm

theorem analyze_result_fst_cases (r : ExecutionResult) (spec : List SpecProp) :
    (analyze_result r spec).1 = RESULT_ACCEPT ∨ (analyze_result r spec).1 = RESULT_REJECT ∨
      (analyze_result r spec).1 = RESULT_UNK := by
  simp only [analyze_result]
  split
  · simp
  · split <;> simp

/-- The test executions actually performed by the loop, in order: a harness
is executed iff its name yields a target and one of its two compile attempts
exits zero; the loop stops after the first execution classified
`RESULT_ACCEPT`. -/
def executedTests (cfg : RunConfig) : List HarnessBehavior → List ExecutionResult
  | [] => []
  | h :: t =>
    match get_target_name h.name with
    | none => []
    | some _ =>
      if h.compileC11.returncode ≠ 0 ∧ h.compileC90.returncode ≠ 0 then executedTests cfg t
      else
        h.testResult ::
          (if (analyze_result h.testResult cfg.specification).1 = RESULT_ACCEPT then []
           else executedTests cfg t)

/-- The per-harness verdicts of the executed harnesses, in order. -/
def executedVerdicts (cfg : RunConfig) (hs : List HarnessBehavior) : List String :=
  (executedTests cfg hs).map (fun r => (analyze_result r cfg.specification).1)

theorem runLoop_final_merge (cfg : RunConfig) (hs : List HarnessBehavior) :
    ∀ s₀ s : LoopState, s₀.broken = false → runLoop cfg s₀ hs = .ok s →
      s.broken = false →
      s.finalResult =
        (if RESULT_UNK ∈ executedVerdicts cfg hs then some RESULT_UNK
         else if s₀.finalResult ≠ none then s₀.finalResult
         else if RESULT_REJECT ∈ executedVerdicts cfg hs then some RESULT_REJECT
         else none) := by
  induction hs with
  | nil =>
    intro s₀ s h0 hrun hnb
    injection hrun with h1
    subst h1
    simp [executedVerdicts, executedTests]
    by_cases hf : s₀.finalResult = none <;> simp [hf]
  | cons h t ih =>
    intro s₀ s h0 hrun hnb
    rw [show runLoop cfg s₀ (h :: t) = (match processHarness cfg s₀ h with
        | .error e => .error e
        | .ok s' => runLoop cfg s' t) from rfl] at hrun
    cases hstep : processHarness cfg s₀ h with
    | error e =>
      rw [hstep] at hrun
      exact absurd (hrun : (Except.error e : Except RunError LoopState) = .ok s) (by simp)
    | ok s' =>
      rw [hstep] at hrun
      replace hrun : runLoop cfg s' t = .ok s := hrun
      rcases processHarness_ok_inv cfg s₀ h s' hstep with ⟨hb, _⟩ |
        ⟨_, tname, cmd1, ht, hc1, hrest⟩
      · rw [h0] at hb; exact absurd hb (by simp)
      · have hverd := analyze_result_fst_cases h.testResult cfg.specification
        have hacceptCase : ∀ base : LoopState,
            s' = afterCompile cfg h (cfg.args.output_path ++ "/" ++ tname) base →
            (analyze_result h.testResult cfg.specification).1 = RESULT_ACCEPT → False := by
          intro base hs' ha
          have hb' : s'.broken = true := by
            rw [hs', afterCompile_eq]
            simp [ha]
          rw [runLoop_broken cfg s' t hb'] at hrun
          injection hrun with h1
          rw [← h1, hb'] at hnb
          exact absurd hnb (by simp)
        have hrejCase : ∀ base : LoopState,
            s' = afterCompile cfg h (cfg.args.output_path ++ "/" ++ tname) base →
            base.broken = false → base.finalResult = s₀.finalResult →
            (analyze_result h.testResult cfg.specification).1 = RESULT_REJECT →
            executedTests cfg (h :: t) =
              h.testResult ::
                (if (analyze_result h.testResult cfg.specification).1 = RESULT_ACCEPT then []
                 else executedTests cfg t) →
            s.finalResult =
              (if RESULT_UNK ∈ executedVerdicts cfg (h :: t) then some RESULT_UNK
               else if s₀.finalResult ≠ none then s₀.finalResult
               else if RESULT_REJECT ∈ executedVerdicts cfg (h :: t) then some RESULT_REJECT
               else none) := by
          intro base hs' hbb hbf hr hexec
          have hv : executedVerdicts cfg (h :: t) =
              (analyze_result h.testResult cfg.specification).1 :: executedVerdicts cfg t := by
            rw [executedVerdicts, hexec, if_neg (by rw [hr]; decide)]
            simp only [List.map_cons]
            rfl
          have hb' : s'.broken = false := by
            rw [hs', afterCompile_eq]
            simp only [hr]
            simp [show ¬ (RESULT_REJECT = RESULT_ACCEPT) by decide, hbb]
          have hf' : s'.finalResult =
              (if s₀.finalResult = none then some RESULT_REJECT else s₀.finalResult) := by
            rw [hs', afterCompile_eq]
            simp only [hr, hbf]
            simp [show ¬ (RESULT_REJECT = RESULT_ACCEPT) by decide]
          rw [ih s' s hb' hrun hnb, hv, hr]
          by_cases hUt : RESULT_UNK ∈ executedVerdicts cfg t
          · simp [hUt, hf', show RESULT_UNK ≠ RESULT_REJECT by decide]
          · by_cases hf0 : s₀.finalResult = none <;>
              simp [hUt, hf', hf0, show RESULT_UNK ≠ RESULT_REJECT by decide]
        have hunkCase : ∀ base : LoopState,
            s' = afterCompile cfg h (cfg.args.output_path ++ "/" ++ tname) base →
            base.broken = false →
            (analyze_result h.testResult cfg.specification).1 = RESULT_UNK →
            executedTests cfg (h :: t) =
              h.testResult ::
                (if (analyze_result h.testResult cfg.specification).1 = RESULT_ACCEPT then []
                 else executedTests cfg t) →
            s.finalResult =
              (if RESULT_UNK ∈ executedVerdicts cfg (h :: t) then some RESULT_UNK
               else if s₀.finalResult ≠ none then s₀.finalResult
               else if RESULT_REJECT ∈ executedVerdicts cfg (h :: t) then some RESULT_REJECT
               else none) := by
          intro base hs' hbb hu hexec
          have hv : executedVerdicts cfg (h :: t) =
              (analyze_result h.testResult cfg.specification).1 :: executedVerdicts cfg t := by
            rw [executedVerdicts, hexec, if_neg (by rw [hu]; decide)]
            simp only [List.map_cons]
            rfl
          have hb' : s'.broken = false := by
            rw [hs', afterCompile_eq]
            simp only [hu]
            simp [show ¬ (RESULT_UNK = RESULT_ACCEPT) by decide, hbb]
          have hf' : s'.finalResult = some RESULT_UNK := by
            rw [hs', afterCompile_eq]
            simp only [hu]
            simp [show ¬ (RESULT_UNK = RESULT_ACCEPT) by decide,
              show ¬ (RESULT_UNK = RESULT_REJECT) by decide]
          rw [ih s' s hb' hrun hnb, hv, hu]
          by_cases hUt : RESULT_UNK ∈ executedVerdicts cfg t <;> simp [hUt, hf']
        rcases hrest with ⟨h11, hs'⟩ | ⟨h11, cmd2, hc2, hrest2⟩
        · have hexec : executedTests cfg (h :: t) =
              h.testResult ::
                (if (analyze_result h.testResult cfg.specification).1 = RESULT_ACCEPT then []
                 else executedTests cfg t) := by
            rw [executedTests, ht]
            simp [h11]
          rcases hverd with ha | hr | hu
          · exact absurd (hacceptCase _ hs' ha) (by simp)
          · exact hrejCase _ hs' (by simp [h0]) (by simp) hr hexec
          · exact hunkCase _ hs' (by simp [h0]) hu hexec
        · rcases hrest2 with ⟨h90, hs'⟩ | ⟨h90, hs'⟩
          · have hexec : executedTests cfg (h :: t) = executedTests cfg t := by
              rw [executedTests, ht]
              simp [h11, h90]
            have hb' : s'.broken = false := by rw [hs']; exact h0
            have hf' : s'.finalResult = s₀.finalResult := by rw [hs']
            rw [ih s' s hb' hrun hnb, hf']
            rw [show executedVerdicts cfg (h :: t) = executedVerdicts cfg t by
              rw [executedVerdicts, hexec]; rfl]
          · have hexec : executedTests cfg (h :: t) =
                h.testResult ::
                  (if (analyze_result h.testResult cfg.specification).1 = RESULT_ACCEPT then []
                   else executedTests cfg t) := by
              rw [executedTests, ht]
              simp [h90]
            rcases hverd with ha | hr | hu
            · exact absurd (hacceptCase _ hs' ha) (by simp)
            · exact hrejCase _ hs' (by simp [h0]) (by simp) hr hexec
            · exact hunkCase _ hs' (by simp [h0]) hu hexec

/-- Claim C2: in a run in which no harness is classified `RESULT_ACCEPT`
(the loop never breaks), the order-sensitive accumulation of `final_result`
(a later `TRUE` never overwrites, a later `UNKNOWN` always overwrites)
equals the order-independent reduction over the classifications of the
executed harnesses: `UNKNOWN` if any harness was classified `UNKNOWN`,
otherwise `TRUE` if any harness was classified `TRUE`, otherwise unset. -/
theorem runLoop_no_confirm_reduction (cfg : RunConfig) (hs : List HarnessBehavior)
    (s : LoopState) (hrun : runLoop cfg initState hs = .ok s) (hnb : s.broken = false) :
    s.finalResult =
      (if RESULT_UNK ∈ executedVerdicts cfg hs then some RESULT_UNK
       else if RESULT_REJECT ∈ executedVerdicts cfg hs then some RESULT_REJECT
       else none) := by
  have := runLoop_final_merge cfg hs initState s rfl hrun hnb
  simpa [initState] using this

def argsW : Args := ⟨[], "32bit", "p.c", "out", false⟩

def cfgW : RunConfig := ⟨argsW, [SpecProp.reach], fun _ => false⟩

def hW1 : HarnessBehavior := ⟨"1.harness.c", ⟨0, "", ""⟩, ⟨1, "", ""⟩, ⟨0, "", ""⟩⟩

def hW2 : HarnessBehavior := ⟨"2.harness.c", ⟨0, "", ""⟩, ⟨1, "", ""⟩, ⟨3, "", ""⟩⟩

/-- The final state of a loop run, for concrete evaluations. -/
def loopResult (cfg : RunConfig) (hs : List HarnessBehavior) : LoopState :=
  match runLoop cfg initState hs with
  | .ok s => s
  | .error _ => initState

/-- Witness for `runLoop_no_confirm_reduction` at a concrete run (one
rejecting, one inconclusive harness). -/
theorem runLoop_no_confirm_reduction_witness :
    runLoop cfgW initState [hW1, hW2] = .ok (loopResult cfgW [hW1, hW2]) ∧
    (loopResult cfgW [hW1, hW2]).broken = false ∧
    (loopResult cfgW [hW1, hW2]).finalResult =
      (if RESULT_UNK ∈ executedVerdicts cfgW [hW1, hW2] then some RESULT_UNK
       else if RESULT_REJECT ∈ executedVerdicts cfgW [hW1, hW2] then some RESULT_REJECT
       else none) :=
  ⟨rfl, rfl, runLoop_no_confirm_reduction cfgW [hW1, hW2] _ rfl rfl⟩
theorem values_accept_snd (r : ExecutionResult) (c : Int) (m : String) (p : SpecProp)
    (h : (_analyze_result_values r c m p).1 = RESULT_ACCEPT) :
    (_analyze_result_values r c m p).2 = some p := by
  unfold _analyze_result_values at h ⊢
  by_cases hcond : r.returncode = c ∧ r.stderr ≠ "" ∧ strContains r.stderr m = true
  · rw [if_pos hcond]
  · rw [if_neg hcond] at h ⊢
    by_cases h0 : r.returncode = 0
    · rw [if_pos h0] at h
      exact absurd h (by decide)
    · rw [if_neg h0] at h
      exact absurd h (by decide)

theorem analyze_result_accept_snd (r : ExecutionResult) (spec : List SpecProp)
    (h : (analyze_result r spec).1 = RESULT_ACCEPT) :
    (analyze_result r spec).2 ≠ none := by
  revert h
  simp only [analyze_result]
  cases hfind : ((checksFor spec).map
      (fun c => _analyze_result_values r c.1 c.2.1 c.2.2)).find?
      (fun r => r.1 == RESULT_ACCEPT) with
  | none =>
    intro hacc
    exfalso
    split at hacc
    · simp_all
    · split at hacc <;> simp [RESULT_UNK, RESULT_REJECT, RESULT_ACCEPT] at hacc
  | some p =>
    intro _
    have hp := List.find?_some hfind
    have hmem := List.mem_of_find?_eq_some hfind
    obtain ⟨c, _, hc⟩ := List.mem_map.mp hmem
    have hp1 : p.1 = RESULT_ACCEPT := by simpa using hp
    have := values_accept_snd r c.1 c.2.1 c.2.2 (by rw [hc]; exact hp1)
    rw [hc] at this
    simp [this]

/-- Run-long invariant tying the verdict accumulators together: the final
result is one of the three verdict strings or unset; a violated property is
recorded iff the verdict is `RESULT_ACCEPT`, and then the loop is broken;
an unset final result means no harness has compiled yet. -/
def StateInv (s : LoopState) : Prop :=
  (s.finalResult = none ∨ s.finalResult = some RESULT_ACCEPT ∨
    s.finalResult = some RESULT_REJECT ∨ s.finalResult = some RESULT_UNK) ∧
  (s.violatedProperty ≠ none → s.finalResult = some RESULT_ACCEPT ∧ s.broken = true) ∧
  (s.finalResult = some RESULT_ACCEPT → s.violatedProperty ≠ none ∧ s.broken = true) ∧
  (s.finalResult = none → s.compileSuccessCount = 0)

theorem initState_inv : StateInv initState := by
  refine ⟨Or.inl rfl, ?_, ?_, fun _ => rfl⟩ <;> simp [initState]

theorem afterCompile_inv (cfg : RunConfig) (h : HarnessBehavior) (tgt : String)
    (base : LoopState) (hinv : StateInv base) (hb : base.broken = false) :
    StateInv (afterCompile cfg h tgt base) := by
  obtain ⟨h1, h2, h3, h4⟩ := hinv
  have hvnone : base.violatedProperty = none := by
    by_contra hv
    rw [(h2 hv).2] at hb
    exact absurd hb (by simp)
  have dRA : RESULT_REJECT ≠ RESULT_ACCEPT := by decide
  have dUA : RESULT_UNK ≠ RESULT_ACCEPT := by decide
  rw [afterCompile_eq]
  unfold StateInv
  dsimp only
  rcases analyze_result_fst_cases h.testResult cfg.specification with ha | hr | hu
  · have hsnd := analyze_result_accept_snd h.testResult cfg.specification ha
    refine ⟨?_, ?_, ?_, ?_⟩
    · simp [ha]
    · intro _
      simp [ha]
    · intro _
      refine ⟨?_, by simp [ha]⟩
      rw [if_pos ⟨ha, hvnone⟩]
      exact hsnd
    · intro hcontr
      simp [ha] at hcontr
  · have hne : (analyze_result h.testResult cfg.specification).1 ≠ RESULT_ACCEPT := by
      rw [hr]; exact dRA
    have hcond : ¬ ((analyze_result h.testResult cfg.specification).1 = RESULT_ACCEPT ∧
        base.violatedProperty = none) := fun hc => hne hc.1
    refine ⟨?_, ?_, ?_, ?_⟩
    · rw [if_neg hne, if_pos hr]
      by_cases hf : base.finalResult = none
      · rw [if_pos hf]
        right; right; left; rfl
      · rw [if_neg hf]
        tauto
    · intro hv
      rw [if_neg hcond] at hv
      exact absurd hvnone hv
    · intro hfa
      rw [if_neg hne, if_pos hr] at hfa
      by_cases hf : base.finalResult = none
      · rw [if_pos hf] at hfa
        exact absurd (Option.some.inj hfa) dRA
      · rw [if_neg hf] at hfa
        rw [(h3 hfa).2] at hb
        exact absurd hb (by simp)
    · intro hfn
      rw [if_neg hne, if_pos hr] at hfn
      by_cases hf : base.finalResult = none
      · rw [if_pos hf] at hfn
        exact absurd hfn (by simp)
      · rw [if_neg hf] at hfn
        exact absurd hfn hf
  · have hne : (analyze_result h.testResult cfg.specification).1 ≠ RESULT_ACCEPT := by
      rw [hu]; exact dUA
    have hner : (analyze_result h.testResult cfg.specification).1 ≠ RESULT_REJECT := by
      rw [hu]; decide
    have hcond : ¬ ((analyze_result h.testResult cfg.specification).1 = RESULT_ACCEPT ∧
        base.violatedProperty = none) := fun hc => hne hc.1
    refine ⟨?_, ?_, ?_, ?_⟩
    · rw [if_neg hne, if_neg hner]
      right; right; right; rfl
    · intro hv
      rw [if_neg hcond] at hv
      exact absurd hvnone hv
    · intro hfa
      rw [if_neg hne, if_neg hner] at hfa
      exact absurd (Option.some.inj hfa) dUA
    · intro hfn
      rw [if_neg hne, if_neg hner] at hfn
      exact absurd hfn (by simp)

theorem processHarness_inv (cfg : RunConfig) (s : LoopState) (h : HarnessBehavior)
    (s' : LoopState) (hstep : processHarness cfg s h = .ok s') (hinv : StateInv s) :
    StateInv s' := by
  rcases processHarness_ok_inv cfg s h s' hstep with ⟨_, rfl⟩ |
    ⟨hbf, tname, cmd1, ht, hc1, hrest⟩
  · exact hinv
  · rcases hrest with ⟨h11, rfl⟩ | ⟨h11, cmd2, hc2, hrest2⟩
    · exact afterCompile_inv cfg h _ _ hinv hbf
    · rcases hrest2 with ⟨h90, rfl⟩ | ⟨h90, rfl⟩
      · exact hinv
      · exact afterCompile_inv cfg h _ _ hinv hbf

theorem runLoop_inv (cfg : RunConfig) (hs : List HarnessBehavior) :
    ∀ s₀ s : LoopState, StateInv s₀ → runLoop cfg s₀ hs = .ok s → StateInv s := by
  induction hs with
  | nil =>
    intro s₀ s hinv hrun
    injection hrun with h1
    exact h1 ▸ hinv
  | cons h t ih =>
    intro s₀ s hinv hrun
    rw [show runLoop cfg s₀ (h :: t) = (match processHarness cfg s₀ h with
        | .error e => .error e
        | .ok s' => runLoop cfg s' t) from rfl] at hrun
    cases hstep : processHarness cfg s₀ h with
    | error e =>
      rw [hstep] at hrun
      exact absurd (hrun : (Except.error e : Except RunError LoopState) = .ok s) (by simp)
    | ok s' =>
      rw [hstep] at hrun
      exact ih s' s (processHarness_inv cfg s₀ h s' hstep hinv) hrun

theorem processHarness_events (cfg : RunConfig) (s : LoopState) (h : HarnessBehavior)
    (s' : LoopState) (hstep : processHarness cfg s h = .ok s') :
    ∀ e ∈ s'.events, e ∈ s.events ∨ eventHarness e = h.name := by
  rcases processHarness_ok_inv cfg s h s' hstep with ⟨_, rfl⟩ |
    ⟨hbf, tname, cmd1, ht, hc1, hrest⟩
  · intro e he
    exact Or.inl he
  · rcases hrest with ⟨h11, rfl⟩ | ⟨h11, cmd2, hc2, hrest2⟩
    · rw [afterCompile_eq]
      intro e he
      dsimp only at he
      simp only [List.mem_append, List.mem_singleton] at he
      rcases he with (he | rfl) | rfl
      · exact Or.inl he
      · exact Or.inr rfl
      · exact Or.inr rfl
    · rcases hrest2 with ⟨h90, rfl⟩ | ⟨h90, rfl⟩
      · intro e he
        dsimp only at he
        simp only [List.mem_append, List.mem_singleton] at he
        rcases he with (he | rfl) | rfl
        · exact Or.inl he
        · exact Or.inr rfl
        · exact Or.inr rfl
      · rw [afterCompile_eq]
        intro e he
        dsimp only at he
        simp only [List.mem_append, List.mem_singleton] at he
        rcases he with ((he | rfl) | rfl) | rfl
        · exact Or.inl he
        · exact Or.inr rfl
        · exact Or.inr rfl
        · exact Or.inr rfl

theorem runLoop_events (cfg : RunConfig) (hs : List HarnessBehavior) :
    ∀ s₀ s : LoopState, runLoop cfg s₀ hs = .ok s →
      ∀ e ∈ s.events, e ∈ s₀.events ∨ eventHarness e ∈ hs.map HarnessBehavior.name := by
  induction hs with
  | nil =>
    intro s₀ s hrun e he
    injection hrun with h1
    subst h1
    exact Or.inl he
  | cons h t ih =>
    intro s₀ s hrun e he
    rw [show runLoop cfg s₀ (h :: t) = (match processHarness cfg s₀ h with
        | .error e => .error e
        | .ok s' => runLoop cfg s' t) from rfl] at hrun
    cases hstep : processHarness cfg s₀ h with
    | error er =>
      rw [hstep] at hrun
      exact absurd (hrun : (Except.error er : Except RunError LoopState) = .ok s) (by simp)
    | ok s' =>
      rw [hstep] at hrun
      replace hrun : runLoop cfg s' t = .ok s := hrun
      rcases ih s' s hrun e he with he' | hname
      · rcases processHarness_events cfg s₀ h s' hstep e he' with he'' | hname
        · exact Or.inl he''
        · exact Or.inr (by simp [hname])
      · exact Or.inr (by simp [hname])

theorem create_compile_cmd_isOk (harness target : String) (args : Args)
    (specification : List SpecProp) (clangAvailable : Bool) (c_version : String)
    (hmm : args.machine_model = MACHINE_MODEL_32 ∨ args.machine_model = MACHINE_MODEL_64) :
    ∃ cmd, create_compile_cmd harness target args specification clangAvailable c_version =
      .ok cmd ∧ cmd.head? = some (if clangAvailable then "clang" else "gcc") := by
  obtain ⟨mflag, hmf, hbasic⟩ :
      ∃ mf, (mf = "-m64" ∨ mf = "-m32") ∧
        _create_gcc_basic_args args = .ok (GCC_ARGS_FIXED ++ args.gcc_args ++ [mf]) := by
    rcases hmm with h | h
    · exact ⟨"-m32", Or.inr rfl, by
        simp [_create_gcc_basic_args, h, MACHINE_MODEL_32, MACHINE_MODEL_64]⟩
    · exact ⟨"-m64", Or.inl rfl, by
        simp [_create_gcc_basic_args, h, MACHINE_MODEL_64]⟩
  refine ⟨_, create_compile_cmd_ok harness target args specification clangAvailable
    c_version _ hbasic, ?_⟩
  simp [builtCmd]

/-- Claim C3: when the harnesses before `h` produce no `RESULT_ACCEPT`
classification and `h` compiles (by either standard) and classifies as
`RESULT_ACCEPT`, the loop stops at `h`: running the loop over
`pre ++ h :: post` gives exactly the state of running it over `pre ++ [h]`;
the final result is `RESULT_ACCEPT` with `h` as successful harness and `h`'s
violated property, and every compile command built or executed and every
binary run belongs to a harness of `pre ++ [h]` — none to `post`. -/
theorem runLoop_short_circuit (cfg : RunConfig) (pre post : List HarnessBehavior)
    (h : HarnessBehavior) (s₁ : LoopState) (tname : String)
    (hmm : cfg.args.machine_model = MACHINE_MODEL_32 ∨
      cfg.args.machine_model = MACHINE_MODEL_64)
    (hpre : runLoop cfg initState pre = .ok s₁) (hnb : s₁.broken = false)
    (ht : get_target_name h.name = some tname)
    (hcomp : h.compileC11.returncode = 0 ∨ h.compileC90.returncode = 0)
    (hacc : (analyze_result h.testResult cfg.specification).1 = RESULT_ACCEPT) :
    ∃ s₂, runLoop cfg initState (pre ++ h :: post) = .ok s₂ ∧
      runLoop cfg initState (pre ++ [h]) = .ok s₂ ∧
      s₂.finalResult = some RESULT_ACCEPT ∧
      s₂.successfulHarness = some h.name ∧
      s₂.violatedProperty = (analyze_result h.testResult cfg.specification).2 ∧
      (∀ e ∈ s₂.events, eventHarness e ∈ (pre ++ [h]).map HarnessBehavior.name) := by
  have hinv₁ : StateInv s₁ := runLoop_inv cfg pre initState s₁ initState_inv hpre
  have hv₁ : s₁.violatedProperty = none := by
    by_contra hv
    have := (hinv₁.2.1 hv).2
    rw [hnb] at this
    exact absurd this (by simp)
  have key : ∀ base : LoopState,
      processHarness cfg s₁ h =
        .ok (afterCompile cfg h (cfg.args.output_path ++ "/" ++ tname) base) →
      base.violatedProperty = s₁.violatedProperty →
      (∀ e ∈ base.events, e ∈ s₁.events ∨ eventHarness e = h.name) →
      ∃ s₂, runLoop cfg initState (pre ++ h :: post) = .ok s₂ ∧
        runLoop cfg initState (pre ++ [h]) = .ok s₂ ∧
        s₂.finalResult = some RESULT_ACCEPT ∧
        s₂.successfulHarness = some h.name ∧
        s₂.violatedProperty = (analyze_result h.testResult cfg.specification).2 ∧
        (∀ e ∈ s₂.events, eventHarness e ∈ (pre ++ [h]).map HarnessBehavior.name) := by
    intro base hstep hbv hbe
    set tgt := cfg.args.output_path ++ "/" ++ tname with htgt
    set s₂ := afterCompile cfg h tgt base with hs₂
    have hbroken : s₂.broken = true := by
      rw [hs₂, afterCompile_eq]
      simp [hacc]
    have hloop1 : runLoop cfg s₁ (h :: post) = .ok s₂ := by
      rw [show runLoop cfg s₁ (h :: post) = (match processHarness cfg s₁ h with
          | .error e => .error e
          | .ok s' => runLoop cfg s' post) from rfl, hstep]
      exact runLoop_broken cfg s₂ post hbroken
    have hloop2 : runLoop cfg s₁ [h] = .ok s₂ := by
      rw [show runLoop cfg s₁ [h] = (match processHarness cfg s₁ h with
          | .error e => .error e
          | .ok s' => runLoop cfg s' []) from rfl, hstep]
      rfl
    refine ⟨s₂, ?_, ?_, ?_, ?_, ?_, ?_⟩
    · rw [runLoop_append, hpre]
      exact hloop1
    · rw [runLoop_append, hpre]
      exact hloop2
    · rw [hs₂, afterCompile_eq]
      simp [hacc]
    · rw [hs₂, afterCompile_eq]
      simp [hacc]
    · rw [hs₂, afterCompile_eq]
      dsimp only
      rw [if_pos ⟨hacc, by rw [hbv, hv₁]⟩]
    · intro e he
      rw [hs₂, afterCompile_eq] at he
      dsimp only at he
      simp only [List.mem_append, List.mem_singleton] at he
      have hpre_events := runLoop_events cfg pre initState s₁ hpre
      rcases he with he | rfl
      · rcases hbe e he with he' | hname
        · rcases hpre_events e he' with habs | hname'
          · simp [initState] at habs
          · simp only [List.map_append, List.mem_append]
            exact Or.inl hname'
        · simp [hname]
      · simp [eventHarness]
  obtain ⟨cmd1, hc1, _⟩ := create_compile_cmd_isOk h.name
    (cfg.args.output_path ++ "/" ++ tname) cfg.args cfg.specification
    (cfg.clangAvail s₁.whichCalls) "gnu11" hmm
  by_cases h11 : h.compileC11.returncode = 0
  · exact key _ (processHarness_compiledC11 cfg s₁ h tname cmd1 hnb ht hc1 h11) rfl
      (by intro e he; simp only [List.mem_append, List.mem_singleton] at he
          rcases he with he | rfl
          · exact Or.inl he
          · exact Or.inr rfl)
  · have h90 : h.compileC90.returncode = 0 := hcomp.resolve_left h11
    obtain ⟨cmd2, hc2, _⟩ := create_compile_cmd_isOk h.name
      (cfg.args.output_path ++ "/" ++ tname) cfg.args cfg.specification
      (cfg.clangAvail (s₁.whichCalls + 1)) "gnu90" hmm
    exact key _ (processHarness_compiledC90 cfg s₁ h tname cmd1 cmd2 hnb ht hc1 h11 hc2 h90)
      rfl
      (by intro e he; simp only [List.mem_append, List.mem_singleton] at he
          rcases he with (he | rfl) | rfl
          · exact Or.inl he
          · exact Or.inr rfl
          · exact Or.inr rfl)

def hA : HarnessBehavior :=
  ⟨"3.harness.c", ⟨0, "", ""⟩, ⟨1, "", ""⟩, ⟨107, "", "cpa_witness2test: violation"⟩⟩

/-- Witness for `runLoop_short_circuit` at a concrete run: the confirming
harness `hA` follows a rejecting harness and precedes `hW2`, which is never
compiled or run. -/
theorem runLoop_short_circuit_witness :
    runLoop cfgW initState [hW1] = .ok (loopResult cfgW [hW1]) ∧
    (loopResult cfgW [hW1]).broken = false ∧
    get_target_name hA.name = some "test_cex3" ∧
    (analyze_result hA.testResult cfgW.specification).1 = RESULT_ACCEPT ∧
    (∃ s₂, runLoop cfgW initState ([hW1] ++ hA :: [hW2]) = .ok s₂ ∧
      runLoop cfgW initState ([hW1] ++ [hA]) = .ok s₂ ∧
      s₂.finalResult = some RESULT_ACCEPT ∧
      s₂.successfulHarness = some hA.name ∧
      s₂.violatedProperty = (analyze_result hA.testResult cfgW.specification).2 ∧
      (∀ e ∈ s₂.events, eventHarness e ∈ ([hW1] ++ [hA]).map HarnessBehavior.name)) :=
  ⟨rfl, rfl, rfl, by decide,
    runLoop_short_circuit cfgW [hW1] [hW2] hA (loopResult cfgW [hW1]) "test_cex3"
      (Or.inl rfl) rfl rfl rfl (Or.inl rfl) (by decide)⟩

/-- Per-iteration change of the statistics counters: every counter is
unchanged or incremented by one, a compile success increments the tested
count, a gnu11 success or a rejection increments the compile-success or
tested count respectively. -/
theorem processHarness_stats (cfg : RunConfig) (s : LoopState) (h : HarnessBehavior)
    (s' : LoopState) (hstep : processHarness cfg s h = .ok s') :
    (s'.iterCount = s.iterCount ∨ s'.iterCount = s.iterCount + 1) ∧
    (s'.compileSuccessCount = s.compileSuccessCount ∨
      (s'.compileSuccessCount = s.compileSuccessCount + 1 ∧
       s'.iterCount = s.iterCount + 1)) ∧
    (s'.c11SuccessCount = s.c11SuccessCount ∨
      (s'.c11SuccessCount = s.c11SuccessCount + 1 ∧
       s'.compileSuccessCount = s.compileSuccessCount + 1)) ∧
    (s'.rejectCount = s.rejectCount ∨
      (s'.rejectCount = s.rejectCount + 1 ∧ s'.iterCount = s.iterCount + 1)) := by
  rcases processHarness_ok_inv cfg s h s' hstep with ⟨_, rfl⟩ |
    ⟨hbf, tname, cmd1, ht, hc1, hrest⟩
  · exact ⟨Or.inl rfl, Or.inl rfl, Or.inl rfl, Or.inl rfl⟩
  · rcases hrest with ⟨h11, rfl⟩ | ⟨h11, cmd2, hc2, hrest2⟩
    · rw [afterCompile_eq]
      dsimp only
      refine ⟨Or.inr rfl, Or.inr ⟨rfl, rfl⟩, Or.inr ⟨rfl, rfl⟩, ?_⟩
      by_cases hrj : (analyze_result h.testResult cfg.specification).1 = RESULT_REJECT
      · rw [if_pos hrj]
        exact Or.inr ⟨rfl, rfl⟩
      · rw [if_neg hrj]
        exact Or.inl rfl
    · rcases hrest2 with ⟨h90, rfl⟩ | ⟨h90, rfl⟩
      · exact ⟨Or.inr rfl, Or.inl rfl, Or.inl rfl, Or.inl rfl⟩
      · rw [afterCompile_eq]
        dsimp only
        refine ⟨Or.inr rfl, Or.inr ⟨rfl, rfl⟩, Or.inl rfl, ?_⟩
        by_cases hrj : (analyze_result h.testResult cfg.specification).1 = RESULT_REJECT
        · rw [if_pos hrj]
          exact Or.inr ⟨rfl, rfl⟩
        · rw [if_neg hrj]
          exact Or.inl rfl

theorem runLoop_stats_inv (cfg : RunConfig) (hs : List HarnessBehavior) :
    ∀ s₀ s : LoopState, runLoop cfg s₀ hs = .ok s →
      s₀.c11SuccessCount ≤ s₀.compileSuccessCount →
      s₀.compileSuccessCount ≤ s₀.iterCount →
      s₀.rejectCount ≤ s₀.iterCount →
      s.c11SuccessCount ≤ s.compileSuccessCount ∧
      s.compileSuccessCount ≤ s.iterCount ∧
      s.rejectCount ≤ s.iterCount ∧
      s.iterCount ≤ s₀.iterCount + hs.length := by
  induction hs with
  | nil =>
    intro s₀ s hrun h1 h2 h3
    injection hrun with he
    subst he
    exact ⟨h1, h2, h3, by simp⟩
  | cons h t ih =>
    intro s₀ s hrun h1 h2 h3
    rw [show runLoop cfg s₀ (h :: t) = (match processHarness cfg s₀ h with
        | .error e => .error e
        | .ok s' => runLoop cfg s' t) from rfl] at hrun
    cases hstep : processHarness cfg s₀ h with
    | error e =>
      rw [hstep] at hrun
      exact absurd (hrun : (Except.error e : Except RunError LoopState) = .ok s) (by simp)
    | ok s' =>
      rw [hstep] at hrun
      replace hrun : runLoop cfg s' t = .ok s := hrun
      obtain ⟨d1, d2, d3, d4⟩ := processHarness_stats cfg s₀ h s' hstep
      have ih' := ih s' s hrun (by omega) (by omega) (by omega)
      refine ⟨ih'.1, ih'.2.1, ih'.2.2.1, ?_⟩
      have := ih'.2.2.2
      simp only [List.length_cons]
      omega

/-- Claim C10: over every run, after any number of processed harnesses, the
statistics counters satisfy gnu11-compile successes ≤ overall compile
successes ≤ harnesses tested ≤ harnesses produced and harnesses rejected ≤
harnesses tested (counters are naturals, hence non-negative), and every
counter grows by at most one per harness iteration. -/
theorem runLoop_statistics_invariants (cfg : RunConfig) (hs : List HarnessBehavior) :
    (∀ n : Nat, ∀ s : LoopState, runLoop cfg initState (hs.take n) = .ok s →
      s.c11SuccessCount ≤ s.compileSuccessCount ∧
      s.compileSuccessCount ≤ s.iterCount ∧
      s.rejectCount ≤ s.iterCount ∧
      s.iterCount ≤ hs.length) ∧
    (∀ n : Nat, ∀ s s' : LoopState, runLoop cfg initState (hs.take n) = .ok s →
      runLoop cfg initState (hs.take (n + 1)) = .ok s' →
      s'.iterCount ≤ s.iterCount + 1 ∧
      s'.compileSuccessCount ≤ s.compileSuccessCount + 1 ∧
      s'.c11SuccessCount ≤ s.c11SuccessCount + 1 ∧
      s'.rejectCount ≤ s.rejectCount + 1) := by
  constructor
  · intro n s hrun
    have := runLoop_stats_inv cfg (hs.take n) initState s hrun
      (by simp [initState]) (by simp [initState]) (by simp [initState])
    refine ⟨this.1, this.2.1, this.2.2.1, ?_⟩
    have hlen : (hs.take n).length ≤ hs.length := by
      rw [List.length_take]
      exact Nat.min_le_right n hs.length
    have := this.2.2.2
    simp only [initState] at this
    omega
  · intro n s s' hrun hrun'
    rw [List.take_succ] at hrun'
    rw [runLoop_append, hrun] at hrun'
    cases hn : hs[n]? with
    | none =>
      rw [hn] at hrun'
      replace hrun' : runLoop cfg s [] = .ok s' := hrun'
      injection hrun' with he
      subst he
      omega
    | some h =>
      rw [hn] at hrun'
      replace hrun' : runLoop cfg s [h] = .ok s' := hrun'
      rw [show runLoop cfg s [h] = (match processHarness cfg s h with
          | .error e => .error e
          | .ok s'' => runLoop cfg s'' []) from rfl] at hrun'
      cases hstep : processHarness cfg s h with
      | error e =>
        rw [hstep] at hrun'
        exact absurd (hrun' : (Except.error e : Except RunError LoopState) = .ok s') (by simp)
      | ok s'' =>
        rw [hstep] at hrun'
        replace hrun' : runLoop cfg s'' [] = .ok s' := hrun'
        injection hrun' with he
        subst he
        obtain ⟨d1, d2, d3, d4⟩ := processHarness_stats cfg s h s'' hstep
        omega

/-- Witness for `runLoop_statistics_invariants` at a concrete run. -/
theorem runLoop_statistics_invariants_witness :
    (runLoop cfgW initState ([hW1, hW2].take 1) = .ok (loopResult cfgW [hW1]) ∧
      ((loopResult cfgW [hW1]).c11SuccessCount ≤ (loopResult cfgW [hW1]).compileSuccessCount ∧
       (loopResult cfgW [hW1]).compileSuccessCount ≤ (loopResult cfgW [hW1]).iterCount ∧
       (loopResult cfgW [hW1]).rejectCount ≤ (loopResult cfgW [hW1]).iterCount ∧
       (loopResult cfgW [hW1]).iterCount ≤ ([hW1, hW2] : List HarnessBehavior).length)) ∧
    (runLoop cfgW initState ([hW1, hW2].take 0) = .ok initState ∧
      ((loopResult cfgW [hW1]).iterCount ≤ initState.iterCount + 1 ∧
       (loopResult cfgW [hW1]).compileSuccessCount ≤ initState.compileSuccessCount + 1 ∧
       (loopResult cfgW [hW1]).c11SuccessCount ≤ initState.c11SuccessCount + 1 ∧
       (loopResult cfgW [hW1]).rejectCount ≤ initState.rejectCount + 1)) :=
  ⟨⟨rfl, (runLoop_statistics_invariants cfgW [hW1, hW2]).1 1 (loopResult cfgW [hW1]) rfl⟩,
   ⟨rfl, (runLoop_statistics_invariants cfgW [hW1, hW2]).2 0 initState
      (loopResult cfgW [hW1]) rfl rfl⟩⟩

/-- The heads (compiler binaries) of the compile commands recorded in a
loop-run's trace, in order. -/
def compileHeads (r : Except RunError LoopState) : Option (List (Option String)) :=
  match r with
  | .ok s => some (s.events.filterMap (fun e =>
      match e with
      | .compileCmd _ c => some c.head?
      | _ => none))
  | .error _ => none

def cfgC7 : RunConfig := ⟨argsW, [SpecProp.reach], fun n => n == 0⟩

/-- Counterexample to claim C7: `shutil.which('clang')` is queried inside
`create_compile_cmd`, once per built compile command, not once per run.  In
an environment whose answer changes after the first probe, the two compile
commands of one run name different compiler binaries. -/
theorem which_probed_per_compile_command :
    compileHeads (runLoop cfgC7 initState [hW1, hW2]) =
      some [some "clang", some "gcc"] ∧
    (some "clang" : Option String) ≠ some "gcc" :=
  ⟨rfl, by decide⟩

theorem create_compile_cmd_head (harness target : String) (args : Args)
    (specification : List SpecProp) (clangAvailable : Bool) (c_version : String)
    (cmd : List String)
    (hc : create_compile_cmd harness target args specification clangAvailable c_version =
      .ok cmd) :
    cmd.head? = some (if clangAvailable then "clang" else "gcc") := by
  cases hb : _create_gcc_basic_args args with
  | error e =>
    rw [show create_compile_cmd harness target args specification clangAvailable c_version =
      .error e by simp [create_compile_cmd, hb]] at hc
    exact absurd hc (by simp)
  | ok basic =>
    rw [create_compile_cmd_ok harness target args specification clangAvailable
      c_version basic hb] at hc
    injection hc with h1
    rw [← h1]
    simp [builtCmd]

theorem processHarness_compile_events (cfg : RunConfig) (s : LoopState)
    (h : HarnessBehavior) (s' : LoopState) (hstep : processHarness cfg s h = .ok s') :
    ∀ hname cmd, Event.compileCmd hname cmd ∈ s'.events →
      Event.compileCmd hname cmd ∈ s.events ∨
      ∃ k, cmd.head? = some (if cfg.clangAvail k then "clang" else "gcc") := by
  rcases processHarness_ok_inv cfg s h s' hstep with ⟨_, rfl⟩ |
    ⟨hbf, tname, cmd1, ht, hc1, hrest⟩
  · intro hname cmd he
    exact Or.inl he
  · have hhead1 := create_compile_cmd_head h.name (cfg.args.output_path ++ "/" ++ tname)
      cfg.args cfg.specification (cfg.clangAvail s.whichCalls) "gnu11" cmd1 hc1
    rcases hrest with ⟨h11, rfl⟩ | ⟨h11, cmd2, hc2, hrest2⟩
    · rw [afterCompile_eq]
      intro hname cmd he
      dsimp only at he
      simp only [List.mem_append, List.mem_singleton] at he
      rcases he with (he | heq) | heq
      · exact Or.inl he
      · cases heq
        exact Or.inr ⟨s.whichCalls, hhead1⟩
      · exact absurd heq (by simp)
    · have hhead2 := create_compile_cmd_head h.name (cfg.args.output_path ++ "/" ++ tname)
        cfg.args cfg.specification (cfg.clangAvail (s.whichCalls + 1)) "gnu90" cmd2 hc2
      rcases hrest2 with ⟨h90, rfl⟩ | ⟨h90, rfl⟩
      · intro hname cmd he
        dsimp only at he
        simp only [List.mem_append, List.mem_singleton] at he
        rcases he with (he | heq) | heq
        · exact Or.inl he
        · cases heq
          exact Or.inr ⟨s.whichCalls, hhead1⟩
        · cases heq
          exact Or.inr ⟨s.whichCalls + 1, hhead2⟩
      · rw [afterCompile_eq]
        intro hname cmd he
        dsimp only at he
        simp only [List.mem_append, List.mem_singleton] at he
        rcases he with ((he | heq) | heq) | heq
        · exact Or.inl he
        · cases heq
          exact Or.inr ⟨s.whichCalls, hhead1⟩
        · cases heq
          exact Or.inr ⟨s.whichCalls + 1, hhead2⟩
        · exact absurd heq (by simp)

/-- Claim C7 as amended: the compiler probe happens at every compile-command
construction, so only when the environment answers every probe alike do all
compile commands of a run name one compiler — then every compile command in
the trace starts with that single compiler binary. -/
theorem compile_commands_single_compiler (cfg : RunConfig) (hs : List HarnessBehavior)
    (hconst : ∀ n, cfg.clangAvail n = cfg.clangAvail 0) :
    ∀ s₀ s : LoopState, runLoop cfg s₀ hs = .ok s →
      ∀ hname cmd, Event.compileCmd hname cmd ∈ s.events →
        Event.compileCmd hname cmd ∈ s₀.events ∨
        cmd.head? = some (if cfg.clangAvail 0 then "clang" else "gcc") := by
  induction hs with
  | nil =>
    intro s₀ s hrun hname cmd he
    injection hrun with h1
    subst h1
    exact Or.inl he
  | cons h t ih =>
    intro s₀ s hrun hname cmd he
    rw [show runLoop cfg s₀ (h :: t) = (match processHarness cfg s₀ h with
        | .error e => .error e
        | .ok s' => runLoop cfg s' t) from rfl] at hrun
    cases hstep : processHarness cfg s₀ h with
    | error er =>
      rw [hstep] at hrun
      exact absurd (hrun : (Except.error er : Except RunError LoopState) = .ok s) (by simp)
    | ok s' =>
      rw [hstep] at hrun
      replace hrun : runLoop cfg s' t = .ok s := hrun
      rcases ih s' s hrun hname cmd he with he' | hhead
      · rcases processHarness_compile_events cfg s₀ h s' hstep hname cmd he' with he'' |
          ⟨k, hk⟩
        · exact Or.inl he''
        · rw [hconst k] at hk
          exact Or.inr hk
      · exact Or.inr hhead

/-- Witness for `compile_commands_single_compiler` at a concrete run whose
environment never finds clang. -/
theorem compile_commands_single_compiler_witness :
    (∀ n, cfgW.clangAvail n = cfgW.clangAvail 0) ∧
    runLoop cfgW initState [hW1] = .ok (loopResult cfgW [hW1]) ∧
    Event.compileCmd "1.harness.c"
      ["gcc", "-D__alias__(x)=", "-m32", "-std=gnu11", "-o", "out/test_cex1",
       "1.harness.c", "p.c"] ∈ (loopResult cfgW [hW1]).events ∧
    (Event.compileCmd "1.harness.c"
        ["gcc", "-D__alias__(x)=", "-m32", "-std=gnu11", "-o", "out/test_cex1",
         "1.harness.c", "p.c"] ∈ initState.events ∨
      (["gcc", "-D__alias__(x)=", "-m32", "-std=gnu11", "-o", "out/test_cex1",
        "1.harness.c", "p.c"] : List String).head? =
        some (if cfgW.clangAvail 0 then "clang" else "gcc")) :=
  ⟨fun _ => rfl, rfl, by decide,
    compile_commands_single_compiler cfgW [hW1] (fun _ => rfl) initState
      (loopResult cfgW [hW1]) rfl "1.harness.c"
      ["gcc", "-D__alias__(x)=", "-m32", "-std=gnu11", "-o", "out/test_cex1",
       "1.harness.c", "p.c"] (by decide)⟩

def hS1 : HarnessBehavior := ⟨"1.harness.c", ⟨0, "", ""⟩, ⟨1, "", ""⟩, ⟨0, "abc", "x"⟩⟩

def hS2 : HarnessBehavior := ⟨"2.harness.c", ⟨0, "", ""⟩, ⟨1, "", ""⟩, ⟨0, "", "y"⟩⟩

/-- Counterexample to claim C9: the script writes the capture files only
when the captured stream is non-empty (`if test_result.stdout:`), so after
the second harness (whose stdout is empty) runs, `stdout.txt` still holds
the first harness's capture. -/
theorem output_files_retain_earlier_capture :
    runLoop cfgW initState [hS1, hS2] = .ok (loopResult cfgW [hS1, hS2]) ∧
    Event.runBinary "2.harness.c" "out/test_cex2" ∈ (loopResult cfgW [hS1, hS2]).events ∧
    hS2.testResult.stdout = "" ∧
    hS1.testResult.stdout = "abc" ∧
    (loopResult cfgW [hS1, hS2]).stdoutFile = some "abc" :=
  ⟨rfl, by decide, rfl, rfl, rfl⟩

/-- The content of a capture file after a sequence of captures, given its
initial content: each non-empty capture overwrites, an empty one is skipped. -/
def lastCapture (init : Option String) (l : List String) : Option String :=
  l.foldl (fun acc x => if x ≠ "" then some x else acc) init

theorem lastCapture_cons (init : Option String) (x : String) (l : List String) :
    lastCapture init (x :: l) = lastCapture (if x ≠ "" then some x else init) l := rfl

/-- Claim C9 as amended: on each harness iteration the capture files are
overwritten only when the corresponding captured stream is non-empty; after
the run each file holds the most recent non-empty capture among the executed
harnesses, or its previous content when all later captures were empty. -/
theorem runLoop_output_files (cfg : RunConfig) (hs : List HarnessBehavior) :
    ∀ s₀ s : LoopState, s₀.broken = false → runLoop cfg s₀ hs = .ok s →
      s.stdoutFile =
        lastCapture s₀.stdoutFile ((executedTests cfg hs).map ExecutionResult.stdout) ∧
      s.stderrFile =
        lastCapture s₀.stderrFile ((executedTests cfg hs).map ExecutionResult.stderr) := by
  induction hs with
  | nil =>
    intro s₀ s h0 hrun
    injection hrun with h1
    subst h1
    exact ⟨rfl, rfl⟩
  | cons h t ih =>
    intro s₀ s h0 hrun
    rw [show runLoop cfg s₀ (h :: t) = (match processHarness cfg s₀ h with
        | .error e => .error e
        | .ok s' => runLoop cfg s' t) from rfl] at hrun
    cases hstep : processHarness cfg s₀ h with
    | error e =>
      rw [hstep] at hrun
      exact absurd (hrun : (Except.error e : Except RunError LoopState) = .ok s) (by simp)
    | ok s' =>
      rw [hstep] at hrun
      replace hrun : runLoop cfg s' t = .ok s := hrun
      rcases processHarness_ok_inv cfg s₀ h s' hstep with ⟨hb, _⟩ |
        ⟨_, tname, cmd1, ht, hc1, hrest⟩
      · rw [h0] at hb; exact absurd hb (by simp)
      · have hkey : ∀ base : LoopState,
            s' = afterCompile cfg h (cfg.args.output_path ++ "/" ++ tname) base →
            base.broken = false →
            base.stdoutFile = s₀.stdoutFile → base.stderrFile = s₀.stderrFile →
            executedTests cfg (h :: t) =
              h.testResult ::
                (if (analyze_result h.testResult cfg.specification).1 = RESULT_ACCEPT then []
                 else executedTests cfg t) →
            s.stdoutFile =
              lastCapture s₀.stdoutFile
                ((executedTests cfg (h :: t)).map ExecutionResult.stdout) ∧
            s.stderrFile =
              lastCapture s₀.stderrFile
                ((executedTests cfg (h :: t)).map ExecutionResult.stderr) := by
          intro base hs' hbb hso hse hexec
          have hfiles : s'.stdoutFile =
              (if h.testResult.stdout ≠ "" then some h.testResult.stdout
               else s₀.stdoutFile) ∧
              s'.stderrFile =
              (if h.testResult.stderr ≠ "" then some h.testResult.stderr
               else s₀.stderrFile) := by
            rw [hs', afterCompile_eq]
            rcases analyze_result_fst_cases h.testResult cfg.specification with ha | hr | hu
            · constructor <;> simp [ha, hso, hse]
            · have hne : (analyze_result h.testResult cfg.specification).1 ≠
                  RESULT_ACCEPT := by rw [hr]; decide
              constructor <;> simp [hr, hne, hso, hse]
            · have hne : (analyze_result h.testResult cfg.specification).1 ≠
                  RESULT_ACCEPT := by rw [hu]; decide
              have hner : (analyze_result h.testResult cfg.specification).1 ≠
                  RESULT_REJECT := by rw [hu]; decide
              constructor <;> simp [hu, hne, hner, hso, hse]
          rw [hexec]
          simp only [List.map_cons, lastCapture_cons]
          by_cases ha : (analyze_result h.testResult cfg.specification).1 = RESULT_ACCEPT
          · have hb' : s'.broken = true := by
              rw [hs', afterCompile_eq]
              simp [ha]
            rw [runLoop_broken cfg s' t hb'] at hrun
            injection hrun with h1
            subst h1
            rw [if_pos ha]
            exact ⟨hfiles.1, hfiles.2⟩
          · have hb' : s'.broken = false := by
              rw [hs', afterCompile_eq]
              simp [ha, hbb]
            have := ih s' s hb' hrun
            rw [if_neg ha]
            rw [hfiles.1, hfiles.2] at this
            exact this
        rcases hrest with ⟨h11, hs'⟩ | ⟨h11, cmd2, hc2, hrest2⟩
        · exact hkey _ hs' (by simp [h0]) rfl rfl
            (by rw [executedTests, ht]; simp [h11])
        · rcases hrest2 with ⟨h90, hs'⟩ | ⟨h90, hs'⟩
          · have hb' : s'.broken = false := by rw [hs']; exact h0
            have := ih s' s hb' hrun
            rw [show executedTests cfg (h :: t) = executedTests cfg t by
              rw [executedTests, ht]; simp [h11, h90]]
            have hso : s'.stdoutFile = s₀.stdoutFile := by rw [hs']
            have hse : s'.stderrFile = s₀.stderrFile := by rw [hs']
            rw [hso, hse] at this
            exact this
          · exact hkey _ hs' (by simp [h0]) rfl rfl
              (by rw [executedTests, ht]; simp [h90])

/-- Witness for `runLoop_output_files` at the concrete counterexample run:
the stdout file keeps the first harness's non-empty capture, the stderr file
holds the second harness's capture. -/
theorem runLoop_output_files_witness :
    initState.broken = false ∧
    runLoop cfgW initState [hS1, hS2] = .ok (loopResult cfgW [hS1, hS2]) ∧
    (loopResult cfgW [hS1, hS2]).stdoutFile =
      lastCapture initState.stdoutFile
        ((executedTests cfgW [hS1, hS2]).map ExecutionResult.stdout) ∧
    (loopResult cfgW [hS1, hS2]).stderrFile =
      lastCapture initState.stderrFile
        ((executedTests cfgW [hS1, hS2]).map ExecutionResult.stderr) :=
  ⟨rfl, rfl,
    (runLoop_output_files cfgW [hS1, hS2] initState (loopResult cfgW [hS1, hS2]) rfl rfl).1,
    (runLoop_output_files cfgW [hS1, hS2] initState (loopResult cfgW [hS1, hS2]) rfl rfl).2⟩

/-- Inversion of a successful `run`: the specification parsed, the
executable was found, the loop succeeded, at least one harness compiled, and
the printed line is built from the final result and violated property. -/
theorem run_model_ok_inv (env : RunEnv) (o : RunOutput) (h : run_model env = .ok o) :
    ∃ spec s, get_spec env.specContent = .ok spec ∧ env.cpaExecutable ≠ none ∧
      runLoop ⟨env.args, spec, env.clangAvail⟩ initState env.harnesses = .ok s ∧
      s.compileSuccessCount ≠ 0 ∧ o.finalState = s ∧
      o.resultLine =
        (match s.violatedProperty with
         | some p =>
           "Verification result: " ++
             (match s.finalResult with | some v => v | none => "None") ++
             ". Property violation (" ++ spec_name p ++ ") found by chosen configuration."
         | none =>
           "Verification result: " ++
             (match s.finalResult with | some v => v | none => "None")) := by
  unfold run_model at h
  split at h
  · exact absurd h (by simp)
  · split at h
    · exact absurd h (by simp)
    · dsimp only at h
      split at h
      · exact absurd h (by simp)
      · split at h
        · exact absurd h (by simp)
        · rename_i xa spec hspec xb exe hexe xc s hloop hcs
          injection h with h1
          subst h1
          refine ⟨spec, s, hspec, by simp [hexe], hloop, by simpa using hcs, rfl, ?_⟩
          cases s.violatedProperty <;> rfl

def envC8 : RunEnv :=
  ⟨argsW, "CHECK( init(main()), LTL( G ! call(__VERIFIER_error()) ) )", some "cpa.sh",
   ⟨0, "", ""⟩,
   [⟨"1.harness.c", ⟨0, "", ""⟩, ⟨1, "", ""⟩, ⟨107, "", "cpa_witness2test: violation"⟩⟩],
   fun _ => false⟩

/-- Counterexample to claim C8: the script prints the literal verdict tokens
`FALSE`, `TRUE`, `UNKNOWN` (the `RESULT_*` constants), not `CONFIRMED`,
`NOT_REPRODUCED`, `INCONCLUSIVE`: a confirming run prints
`Verification result: FALSE. ...`, which starts with none of the four
claimed tokens. -/
theorem verdict_tokens_counterexample :
    main_model envC8 = some
      ("Verification result: FALSE. Property violation (unreach-call) " ++
       "found by chosen configuration.") ∧
    (∀ v ∈ (["CONFIRMED", "NOT_REPRODUCED", "INCONCLUSIVE", "ERROR"] : List String),
      ("Verification result: " ++ v).toList.isPrefixOf
        ("Verification result: FALSE. Property violation (unreach-call) " ++
         "found by chosen configuration.").toList = false) :=
  ⟨rfl, by decide⟩

/-- Claim C8 as amended: every terminal verification-result line printed by
the script is `Verification result: ERROR.`, or `Verification result: FALSE`
followed by the violated property name (confirmed), or exactly
`Verification result: TRUE` (not reproduced) or `Verification result:
UNKNOWN` (inconclusive). -/
theorem verdict_line_form (env : RunEnv) (L : String)
    (hmain : main_model env = some L) :
    L = "Verification result: ERROR." ∨
    (∃ p : SpecProp, L = "Verification result: FALSE. Property violation (" ++
      spec_name p ++ ") found by chosen configuration.") ∨
    L = "Verification result: TRUE" ∨
    L = "Verification result: UNKNOWN" := by
  unfold main_model at hmain
  cases hrm : run_model env with
  | error e =>
    rw [hrm] at hmain
    cases e with
    | validationError msg =>
      replace hmain : some "Verification result: ERROR." = some L := hmain
      injection hmain with h1
      exact Or.inl h1.symm
    | assertionError msg =>
      exact absurd (hmain : (none : Option String) = some L) (by simp)
    | attributeError =>
      exact absurd (hmain : (none : Option String) = some L) (by simp)
  | ok o =>
    rw [hrm] at hmain
    replace hmain : some o.resultLine = some L := hmain
    injection hmain with h1
    obtain ⟨spec, s, hspec, hexe, hloop, hcs, hfs, hline⟩ := run_model_ok_inv env o hrm
    have hinv : StateInv s :=
      runLoop_inv ⟨env.args, spec, env.clangAvail⟩ env.harnesses initState s
        initState_inv hloop
    obtain ⟨hf4, hviol, hacc3, hnone⟩ := hinv
    have hfsome : s.finalResult ≠ none := fun hf => hcs (hnone hf)
    rcases hf4 with hf | hf | hf | hf
    · exact absurd hf hfsome
    · have hv := (hacc3 hf).1
      cases hvp : s.violatedProperty with
      | none => exact absurd hvp hv
      | some p =>
        right; left
        refine ⟨p, ?_⟩
        rw [← h1, hline, hvp, hf]
        cases p <;> rfl
    · have hvnone : s.violatedProperty = none := by
        by_contra hv
        have := (hviol hv).1
        rw [hf] at this
        injection this with h2
        exact absurd h2 (by decide)
      right; right; left
      rw [← h1, hline, hvnone, hf]
      rfl
    · have hvnone : s.violatedProperty = none := by
        by_contra hv
        have := (hviol hv).1
        rw [hf] at this
        injection this with h2
        exact absurd h2 (by decide)
      right; right; right
      rw [← h1, hline, hvnone, hf]
      rfl

/-- Witness for `verdict_line_form` at the concrete confirming run. -/
theorem verdict_line_form_witness :
    main_model envC8 = some
      ("Verification result: FALSE. Property violation (unreach-call) " ++
       "found by chosen configuration.") ∧
    (("Verification result: FALSE. Property violation (unreach-call) " ++
       "found by chosen configuration." : String) = "Verification result: ERROR." ∨
     (∃ p : SpecProp,
       ("Verification result: FALSE. Property violation (unreach-call) " ++
        "found by chosen configuration." : String) =
         "Verification result: FALSE. Property violation (" ++ spec_name p ++
           ") found by chosen configuration.") ∨
     ("Verification result: FALSE. Property violation (unreach-call) " ++
      "found by chosen configuration." : String) = "Verification result: TRUE" ∨
     ("Verification result: FALSE. Property violation (unreach-call) " ++
      "found by chosen configuration." : String) = "Verification result: UNKNOWN") :=
  ⟨rfl, verdict_line_form envC8 _ rfl⟩

def envBad : RunEnv := ⟨argsW, "FOO", some "cpa.sh", ⟨0, "", ""⟩, [], fun _ => false⟩

/-- Counterexample to claim C4: a specification document that does not match
the `CHECK(init(...), LTL(...))` shape makes `get_spec`'s `assert` fail with
an `AssertionError`, which the top-level handler (which catches only
`ValidationError`) does not catch: no `Verification result: ERROR.` report
is produced. -/
theorem spec_failure_not_error_report :
    run_model envBad = .error (RunError.assertionError
      "No specification found for specification string: FOO") ∧
    main_model envBad = none ∧
    (none : Option String) ≠ some "Verification result: ERROR." :=
  ⟨rfl, rfl, by decide⟩

theorem get_spec_error_is_assertion (content : String) (e : RunError)
    (h : get_spec content = .error e) : ∃ msg, e = .assertionError msg := by
  unfold get_spec at h
  dsimp only at h
  split at h
  · injection h with h1
    exact ⟨_, h1.symm⟩
  · exact absurd h (by simp)

theorem runLoop_all_compile_fail (cfg : RunConfig) (hs : List HarnessBehavior)
    (hmm : cfg.args.machine_model = MACHINE_MODEL_32 ∨
      cfg.args.machine_model = MACHINE_MODEL_64)
    (hwf : ∀ h ∈ hs, (get_target_name h.name).isSome = true)
    (hfail : ∀ h ∈ hs, h.compileC11.returncode ≠ 0 ∧ h.compileC90.returncode ≠ 0) :
    ∀ s₀ : LoopState, s₀.broken = false →
      ∃ s, runLoop cfg s₀ hs = .ok s ∧
        s.compileSuccessCount = s₀.compileSuccessCount ∧ s.broken = false := by
  induction hs with
  | nil =>
    intro s₀ h0
    exact ⟨s₀, rfl, rfl, h0⟩
  | cons h t ih =>
    intro s₀ h0
    obtain ⟨tname, ht⟩ : ∃ tname, get_target_name h.name = some tname := by
      have := hwf h (by simp)
      cases hgt : get_target_name h.name with
      | none => rw [hgt] at this; exact absurd this (by simp)
      | some tname => exact ⟨tname, rfl⟩
    obtain ⟨cmd1, hc1, _⟩ := create_compile_cmd_isOk h.name
      (cfg.args.output_path ++ "/" ++ tname) cfg.args cfg.specification
      (cfg.clangAvail s₀.whichCalls) "gnu11" hmm
    obtain ⟨cmd2, hc2, _⟩ := create_compile_cmd_isOk h.name
      (cfg.args.output_path ++ "/" ++ tname) cfg.args cfg.specification
      (cfg.clangAvail (s₀.whichCalls + 1)) "gnu90" hmm
    have hstep := processHarness_skip cfg s₀ h tname cmd1 cmd2 h0 ht hc1
      (hfail h (by simp)).1 hc2 (hfail h (by simp)).2
    have hwt : ∀ h ∈ t, (get_target_name h.name).isSome = true :=
      fun h hm => hwf h (by simp [hm])
    have hft : ∀ h ∈ t, h.compileC11.returncode ≠ 0 ∧ h.compileC90.returncode ≠ 0 :=
      fun h hm => hfail h (by simp [hm])
    obtain ⟨s, hrun, hcs, hb⟩ :=
      ih hwt hft
        ({ s₀ with iterCount := s₀.iterCount + 1,
                   whichCalls := s₀.whichCalls + 2,
                   events := s₀.events ++ [Event.compileCmd h.name cmd1] ++
                     [Event.compileCmd h.name cmd2] })
        (by simpa using h0)
    refine ⟨s, ?_, by simpa using hcs, hb⟩
    rw [show runLoop cfg s₀ (h :: t) = (match processHarness cfg s₀ h with
        | .error e => .error e
        | .ok s' => runLoop cfg s' t) from rfl, hstep]
    exact hrun

/-- Claim C4 as amended: of the three run-level failure conditions, the
missing generator executable and the all-compiles-failed condition raise
`ValidationError` and produce the terminal `Verification result: ERROR.`
report; a specification document of the wrong shape (or yielding an empty
property set) instead fails the `assert` in `get_spec` with an uncaught
`AssertionError`, producing no verification-result report at all. -/
theorem run_failure_conditions :
    (∀ env : RunEnv, ∀ spec, get_spec env.specContent = .ok spec →
      env.cpaExecutable = none →
      run_model env = .error (.validationError
        "CPAchecker executable not found or not executable!") ∧
      main_model env = some "Verification result: ERROR.") ∧
    (∀ env : RunEnv, ∀ e, get_spec env.specContent = .error e →
      (∃ msg, e = .assertionError msg) ∧ run_model env = .error e ∧
      main_model env = none) ∧
    (∀ env : RunEnv, ∀ spec, get_spec env.specContent = .ok spec →
      env.cpaExecutable ≠ none →
      (env.args.machine_model = MACHINE_MODEL_32 ∨
        env.args.machine_model = MACHINE_MODEL_64) →
      (∀ h ∈ env.harnesses, (get_target_name h.name).isSome = true) →
      (∀ h ∈ env.harnesses, h.compileC11.returncode ≠ 0 ∧ h.compileC90.returncode ≠ 0) →
      run_model env = .error (.validationError
        "Compilation failed for every harness/file pair.") ∧
      main_model env = some "Verification result: ERROR.") := by
  refine ⟨?_, ?_, ?_⟩
  · intro env spec hspec hexe
    have hrm : run_model env = .error (.validationError
        "CPAchecker executable not found or not executable!") := by
      unfold run_model
      rw [hspec, hexe]
    exact ⟨hrm, by rw [main_model, hrm]⟩
  · intro env e hspec
    refine ⟨get_spec_error_is_assertion env.specContent e hspec, ?_⟩
    have hrm : run_model env = .error e := by
      unfold run_model
      rw [hspec]
    obtain ⟨msg, rfl⟩ := get_spec_error_is_assertion env.specContent e hspec
    exact ⟨hrm, by rw [main_model, hrm]⟩
  · intro env spec hspec hexe hmm hwf hfail
    obtain ⟨exe, hexe'⟩ : ∃ exe, env.cpaExecutable = some exe := by
      cases hx : env.cpaExecutable with
      | none => exact absurd hx hexe
      | some exe => exact ⟨exe, rfl⟩
    obtain ⟨s, hloop, hcs, _⟩ := runLoop_all_compile_fail
      ⟨env.args, spec, env.clangAvail⟩ env.harnesses hmm hwf hfail initState rfl
    have hcs0 : s.compileSuccessCount = 0 := by simpa [initState] using hcs
    have hrm : run_model env = .error (.validationError
        "Compilation failed for every harness/file pair.") := by
      unfold run_model
      rw [hspec, hexe']
      dsimp only
      rw [hloop]
      exact if_pos hcs0
    exact ⟨hrm, by rw [main_model, hrm]⟩

def envF : RunEnv :=
  ⟨argsW, "CHECK( init(main()), LTL( G ! overflow ) )", none, ⟨0, "", ""⟩, [],
   fun _ => false⟩

def hFail : HarnessBehavior := ⟨"1.harness.c", ⟨1, "", ""⟩, ⟨1, "", ""⟩, ⟨0, "", ""⟩⟩

def envD : RunEnv :=
  ⟨argsW, "CHECK( init(main()), LTL( G ! overflow ) )", some "cpa.sh", ⟨0, "", ""⟩,
   [hFail], fun _ => false⟩

/-- Witness for `run_failure_conditions` at three concrete environments: a
missing executable, an unparseable specification, and a run in which the
only harness fails both compile attempts. -/
theorem run_failure_conditions_witness :
    (get_spec envF.specContent = .ok [SpecProp.overflow] ∧ envF.cpaExecutable = none ∧
      run_model envF = .error (.validationError
        "CPAchecker executable not found or not executable!") ∧
      main_model envF = some "Verification result: ERROR.") ∧
    (get_spec envBad.specContent = .error (RunError.assertionError
        "No specification found for specification string: FOO") ∧
      (∃ msg, RunError.assertionError
        "No specification found for specification string: FOO" =
          RunError.assertionError msg) ∧
      run_model envBad = .error (RunError.assertionError
        "No specification found for specification string: FOO") ∧
      main_model envBad = none) ∧
    (get_spec envD.specContent = .ok [SpecProp.overflow] ∧ envD.cpaExecutable ≠ none ∧
      run_model envD = .error (.validationError
        "Compilation failed for every harness/file pair.") ∧
      main_model envD = some "Verification result: ERROR.") := by
  refine ⟨⟨rfl, rfl, ?_⟩, ⟨rfl, ?_⟩, ⟨rfl, by simp [envD], ?_⟩⟩
  · exact run_failure_conditions.1 envF [SpecProp.overflow] rfl rfl
  · have := run_failure_conditions.2.1 envBad
      (RunError.assertionError "No specification found for specification string: FOO") rfl
    exact ⟨this.1, this.2.1, this.2.2⟩
  · exact run_failure_conditions.2.2 envD [SpecProp.overflow] rfl (by simp [envD])
      (Or.inl rfl) (by decide) (by decide)

def contentC6 : String := "CHECK( init(main()), LTL( G valid-free ) ) G ! overflow"

/-- Counterexample to claim C6: `get_spec` runs every recognition pattern
over the whole document (`regex.search(content)`), not over the extracted
LTL formula (`spec_matches.group(1)` is never used).  For this document the
captured formula is `G valid-free ) `, which the overflow pattern does not
match, yet `no-overflow` is added because the pattern occurs after the
`CHECK` clause. -/
theorem recognition_searches_whole_document :
    spec_match (pyStrip contentC6.toList) = some "G valid-free ) ".toList ∧
    searchToks REGEX_OVERFLOW "G valid-free ) ".toList = false ∧
    SpecProp.overflow ∈ get_spec_list (pyStrip contentC6.toList) ∧
    get_spec contentC6 = .ok [SpecProp.overflow, SpecProp.memFree] :=
  ⟨rfl, rfl, by decide, rfl⟩

theorem mem_SPECIFICATIONS (s : SpecProp) : s ∈ SPECIFICATIONS := by
  cases s <;> decide

theorem get_spec_list_matches_whole_document (content : List Char)
    (hmatch : (spec_match content).isSome = true) (s : SpecProp) :
    s ∈ get_spec_list content ↔ searchToks (spec_regex s) content = true := by
  unfold get_spec_list
  cases hm : spec_match content with
  | none =>
    rw [hm] at hmatch
    exact absurd hmatch (by simp)
  | some g =>
    simp only [List.mem_filter]
    exact ⟨fun h => h.2, fun h => ⟨mem_SPECIFICATIONS s, h⟩⟩

/-- Claim C6 as amended: when `get_spec` succeeds, a property is in the
returned set exactly when its recognition pattern matches somewhere in the
whole (stripped) document text — not only in the extracted formula. -/
theorem get_spec_matches_whole_document (fileContent : String) (l : List SpecProp)
    (hok : get_spec fileContent = .ok l) (s : SpecProp) :
    s ∈ l ↔ searchToks (spec_regex s) (pyStrip fileContent.toList) = true := by
  unfold get_spec at hok
  dsimp only at hok
  split at hok
  · exact absurd hok (by simp)
  · rename_i hne
    injection hok with h1
    subst h1
    have hmatch : (spec_match (pyStrip fileContent.toList)).isSome = true := by
      cases hsm : spec_match (pyStrip fileContent.toList) with
      | none =>
        exfalso
        apply hne
        rw [get_spec_list, hsm]
        rfl
      | some g => rfl
    exact get_spec_list_matches_whole_document (pyStrip fileContent.toList) hmatch s

/-- Witness for `get_spec_matches_whole_document` at a concrete document. -/
theorem get_spec_matches_whole_document_witness :
    get_spec "CHECK( init(main()), LTL( G ! overflow ) )" = .ok [SpecProp.overflow] ∧
    (SpecProp.overflow ∈ [SpecProp.overflow] ↔
      searchToks (spec_regex SpecProp.overflow)
        (pyStrip "CHECK( init(main()), LTL( G ! overflow ) )".toList) = true) :=
  ⟨rfl, get_spec_matches_whole_document "CHECK( init(main()), LTL( G ! overflow ) )"
    [SpecProp.overflow] rfl SpecProp.overflow⟩
